import Mathlib

/-!
Verification of the grafana-reporter plugin backend against its
natural-language specification.

Modelling conventions: Go strings are modelled as `List Char` (one `Char`
per byte; all inputs of interest are ASCII), Go maps as functions into
`Option`, byte slices as `List Nat` with every element below 256, and the
success of the external cron parser as an explicit boolean predicate.
The Go sources embedded here are `src/unnamed/part_005` (the plugin app:
config store, job store, scheduler, render client, execution pipeline)
and `src/pkg/plugin/email.go` (the MIME email composer).
-/

namespace GrafanaReporter

/-- Go strings are modelled as lists of characters (bytes). -/
abbrev Str := List Char

/-- Character list of a Lean string literal, used to transcribe Go literals. -/
def str (s : String) : Str := s.data

/-- Embeds `maskString` (part_005, lines 763-772): the empty secret maps to
itself, secrets of at most four characters map to a fixed four-star mask,
and longer secrets keep their first two and last two characters with every
interior character replaced by an asterisk. -/
def maskString (s : Str) : Str :=
  if s = [] then []
  else if s.length ≤ 4 then str "****"
  else s.take 2 ++ List.replicate (s.length - 4) '*' ++ s.drop (s.length - 2)

/-- Embeds the runtime configuration record `Config` (part_005, lines 42-50). -/
structure Config where
  grafanaURL : Str
  grafanaAPIKey : Str
  smtpHost : Str
  smtpPort : Int
  smtpUser : Str
  smtpPassword : Str
  smtpFrom : Str
deriving DecidableEq, Repr

/-- Embeds `strings.Contains(s, "*")`, the masked-placeholder recognition
used by `updateConfig` (part_005, lines 740 and 743). -/
def containsStar (s : Str) : Bool := s.contains '*'

/-- Embeds the merge step of `updateConfig` (part_005, lines 729-748): a
secret-bearing field whose incoming value contains an asterisk is replaced
by the stored value; every other field of the incoming config is taken
as-is. -/
def updateConfigMerge (old incoming : Config) : Config :=
  { incoming with
    grafanaAPIKey :=
      if containsStar incoming.grafanaAPIKey then old.grafanaAPIKey
      else incoming.grafanaAPIKey
    smtpPassword :=
      if containsStar incoming.smtpPassword then old.smtpPassword
      else incoming.smtpPassword }

/-- Embeds the call to `saveConfig` at the end of `updateConfig` (part_005,
lines 272-289 and 751): the config serialized to disk is the merged config
itself, field for field, never a masked projection. -/
def updateConfigDisk (old incoming : Config) : Config :=
  updateConfigMerge old incoming

/-- Embeds `getConfig` (part_005, lines 699-727): the read path returns the
stored config with the two secret fields masked. -/
def getConfigResponse (c : Config) : Config :=
  { c with
    grafanaAPIKey := maskString c.grafanaAPIKey
    smtpPassword := maskString c.smtpPassword }

theorem containsStar_iff (s : Str) : containsStar s = true ↔ '*' ∈ s := by
  simp [containsStar]

theorem containsStar_maskString (s : Str) (hs : s ≠ []) :
    containsStar (maskString s) = true := by
  rw [containsStar_iff]
  by_cases h4 : s.length ≤ 4
  · rw [maskString, if_neg hs, if_pos h4]; decide
  · rw [maskString, if_neg hs, if_neg h4]
    refine List.mem_append.mpr (Or.inl (List.mem_append.mpr (Or.inr ?_)))
    exact List.mem_replicate.mpr ⟨by omega, rfl⟩

/-- Sample stored config used by concrete witnesses. -/
def sampleOldConfig : Config :=
  { grafanaURL := str "http://localhost:3000"
    grafanaAPIKey := str "key12345"
    smtpHost := str "mail.example.com"
    smtpPort := 587
    smtpUser := str "user"
    smtpPassword := str "secretpass"
    smtpFrom := str "reports@example.com" }

/-- Sample incoming config update carrying masked secrets. -/
def sampleMaskedUpdate : Config :=
  { grafanaURL := str "http://localhost:3000"
    grafanaAPIKey := str "ke****45"
    smtpHost := str "mail.example.com"
    smtpPort := 587
    smtpUser := str "user"
    smtpPassword := str "AB****GH"
    smtpFrom := str "reports@example.com" }

/-- Claim C1: a config update keeps the stored cleartext secret whenever the
incoming value is recognized as a masked placeholder (it contains an
asterisk, as the masked projection of every nonempty secret does) and
replaces it with an unmasked incoming value; the config written to disk is
the merged cleartext config; in particular posting smtpPassword "AB****GH"
over stored password "secretpass" retains "secretpass". -/
theorem updateConfig_preserves_secrets (old incoming : Config) :
    (containsStar incoming.smtpPassword = true →
      (updateConfigMerge old incoming).smtpPassword = old.smtpPassword) ∧
    (containsStar incoming.smtpPassword = false →
      (updateConfigMerge old incoming).smtpPassword = incoming.smtpPassword) ∧
    (containsStar incoming.grafanaAPIKey = true →
      (updateConfigMerge old incoming).grafanaAPIKey = old.grafanaAPIKey) ∧
    (containsStar incoming.grafanaAPIKey = false →
      (updateConfigMerge old incoming).grafanaAPIKey = incoming.grafanaAPIKey) ∧
    (incoming.smtpPassword = maskString old.smtpPassword → old.smtpPassword ≠ [] →
      (updateConfigMerge old incoming).smtpPassword = old.smtpPassword) ∧
    updateConfigDisk old incoming = updateConfigMerge old incoming ∧
    (old.smtpPassword = str "secretpass" → incoming.smtpPassword = str "AB****GH" →
      (updateConfigMerge old incoming).smtpPassword = str "secretpass") := by
  refine ⟨?_, ?_, ?_, ?_, ?_, rfl, ?_⟩
  · intro h; simp [updateConfigMerge, h]
  · intro h; simp [updateConfigMerge, h]
  · intro h; simp [updateConfigMerge, h]
  · intro h; simp [updateConfigMerge, h]
  · intro hmask hne
    have : containsStar incoming.smtpPassword = true := by
      rw [hmask]; exact containsStar_maskString _ hne
    simp [updateConfigMerge, this]
  · intro hold hin
    have : containsStar incoming.smtpPassword = true := by
      rw [hin]; decide
    simp [updateConfigMerge, this, hold]

/-- Witness for claim C1: posting the masked password "AB****GH" over the
stored password "secretpass" retains "secretpass". -/
theorem updateConfig_preserves_secrets_witness :
    (updateConfigMerge sampleOldConfig sampleMaskedUpdate).smtpPassword =
      str "secretpass" :=
  (updateConfig_preserves_secrets sampleOldConfig sampleMaskedUpdate).1
    (by decide)

/-- Counterexample for claim C2: the interior mask is not of fixed length
(a ten-character secret receives six asterisks, not four), and a secret
whose interior already consists of asterisks is equal to its own mask, so
the masked value can coincide with the cleartext for secrets longer than
four characters. -/
theorem maskString_counterexample :
    maskString (str "ABCDEFGHIJ") = str "AB******IJ" ∧
    maskString (str "ABCDEFGHIJ") ≠ str "AB****IJ" ∧
    maskString (str "AB****GH") = str "AB****GH" := by
  decide

/-- Claim C2 (amended): masking sends the empty secret to itself and
nonempty secrets of length at most four to the fixed mask "****"; for a
secret longer than four characters the mask has the same length, preserves
the first two and last two characters, and replaces each of the length-4
interior characters by an asterisk (so masking "ABCDEFGH" yields
"AB****GH"); the mask differs from the cleartext whenever some interior
character of the secret is not itself an asterisk. -/
theorem maskString_spec (s : Str) :
    (s = [] → maskString s = []) ∧
    (s ≠ [] → s.length ≤ 4 → maskString s = str "****") ∧
    maskString (str "ABCDEFGH") = str "AB****GH" ∧
    (4 < s.length →
      (maskString s).length = s.length ∧
      (maskString s).take 2 = s.take 2 ∧
      (maskString s).drop (s.length - 2) = s.drop (s.length - 2) ∧
      ((maskString s).drop 2).take (s.length - 4) =
        List.replicate (s.length - 4) '*') ∧
    (4 < s.length → (∃ c ∈ ((s.drop 2).take (s.length - 4)), c ≠ '*') →
      maskString s ≠ s) := by
  have hmask : ∀ h4 : 4 < s.length,
      maskString s =
        s.take 2 ++ List.replicate (s.length - 4) '*' ++ s.drop (s.length - 2) := by
    intro h4
    have hne : s ≠ [] := by
      intro h; rw [h] at h4; simp at h4
    rw [maskString, if_neg hne, if_neg (by omega)]
  have hlen2 : ∀ _ : 4 < s.length, (s.take 2).length = 2 := by
    intro h4; simp [List.length_take]; omega
  have hmid : ∀ h4 : 4 < s.length,
      ((maskString s).drop 2).take (s.length - 4) =
        List.replicate (s.length - 4) '*' := by
    intro h4
    rw [hmask h4, List.append_assoc, List.drop_left' (hlen2 h4)]
    exact List.take_left' (by simp)
  refine ⟨?_, ?_, by decide, ?_, ?_⟩
  · intro h; rw [maskString, if_pos h]
  · intro hne h4; rw [maskString, if_neg hne, if_pos h4]
  · intro h4
    refine ⟨?_, ?_, ?_, hmid h4⟩
    · rw [hmask h4]
      simp only [List.length_append, List.length_take, List.length_replicate,
        List.length_drop]
      omega
    · rw [hmask h4, List.append_assoc]
      exact List.take_left' (hlen2 h4)
    · rw [hmask h4]
      exact List.drop_left' (by
        simp only [List.length_append, List.length_take, List.length_replicate]
        omega)
  · intro h4 hc heq
    obtain ⟨c, hcmem, hcne⟩ := hc
    have h1 : ((s.drop 2).take (s.length - 4)) = List.replicate (s.length - 4) '*' := by
      have := hmid h4
      rw [heq] at this
      exact this
    rw [h1] at hcmem
    exact hcne (List.eq_of_mem_replicate hcmem)

/-- Witness for claim C2: the nine-character secret "ABCDEFGHI" is masked to
a value different from its cleartext. -/
theorem maskString_spec_witness :
    maskString (str "ABCDEFGHI") ≠ str "ABCDEFGHI" :=
  (maskString_spec (str "ABCDEFGHI")).2.2.2.2 (by decide)
    ⟨'C', by decide, by decide⟩

/-- Claim C10: the masked-placeholder check of `updateConfig` is literally
"contains an asterisk anywhere", so any incoming secret containing an
asterisk is discarded in favour of the stored one; consequently a stored
secret can only ever change to an asterisk-free value, and it is impossible
to set a secret whose cleartext contains an asterisk through the config
API. -/
theorem updateConfig_asterisk_unsettable (old incoming : Config) :
    (containsStar incoming.grafanaAPIKey = true →
      (updateConfigMerge old incoming).grafanaAPIKey = old.grafanaAPIKey) ∧
    (containsStar incoming.smtpPassword = true →
      (updateConfigMerge old incoming).smtpPassword = old.smtpPassword) ∧
    ((updateConfigMerge old incoming).grafanaAPIKey ≠ old.grafanaAPIKey →
      containsStar (updateConfigMerge old incoming).grafanaAPIKey = false) ∧
    ((updateConfigMerge old incoming).smtpPassword ≠ old.smtpPassword →
      containsStar (updateConfigMerge old incoming).smtpPassword = false) := by
  refine ⟨?_, ?_, ?_, ?_⟩
  · intro h; simp [updateConfigMerge, h]
  · intro h; simp [updateConfigMerge, h]
  · intro h
    cases hk : containsStar incoming.grafanaAPIKey
    · simp [updateConfigMerge, hk]
    · exact absurd (by simp [updateConfigMerge, hk]) h
  · intro h
    cases hk : containsStar incoming.smtpPassword
    · simp [updateConfigMerge, hk]
    · exact absurd (by simp [updateConfigMerge, hk]) h

/-- Witness for claim C10: an update carrying the asterisk-bearing password
"AB****GH" leaves the stored password "secretpass" in place. -/
theorem updateConfig_asterisk_unsettable_witness :
    (updateConfigMerge sampleOldConfig sampleMaskedUpdate).smtpPassword =
      str "secretpass" ∧
    (updateConfigMerge sampleOldConfig sampleMaskedUpdate).grafanaAPIKey =
      str "key12345" :=
  ⟨(updateConfig_asterisk_unsettable sampleOldConfig sampleMaskedUpdate).2.1
      (by decide),
   (updateConfig_asterisk_unsettable sampleOldConfig sampleMaskedUpdate).1
      (by decide)⟩

/-- Embeds the report definition record `Job` (part_005, lines 23-39).
Numeric fields are Go `int` values, the optional panel reference a Go
`*int`, and the variables map is carried as an association list in map
iteration order. -/
structure Job where
  id : Str
  cron : Str
  dashboardUID : Str
  slug : Str
  panelId : Option Int
  timeFrom : Str
  timeTo : Str
  width : Int
  height : Int
  scale : Int
  format : Str
  recipients : List Str
  subject : Str
  body : Str
  Variables : List (Str × Str)
deriving DecidableEq, Repr

/-- Combined mutable state of the plugin app (part_005, lines 53-69): the
job map, the job-id-to-cron-handle map, the live cron-engine entries (each
carrying the job snapshot its callback closed over), the id counter of the
cron engine, and the current content of the persisted jobs file. -/
structure AppState where
  jobs : Str → Option Job
  cronIDs : Str → Option Nat
  entries : List (Nat × Job)
  nextEntryID : Nat
  persisted : Str → Option Job

/-- State of the app at process start before any job is loaded. -/
def initialState : AppState :=
  { jobs := fun _ => none
    cronIDs := fun _ => none
    entries := []
    nextEntryID := 1
    persisted := fun _ => none }

/-- Embeds `unscheduleJob` (part_005, lines 320-329), which is also the
removal prelude of `scheduleJob`: cancel the registered cron entry for the
job id, if any, and drop the handle from the map. -/
def unscheduleJob (s : AppState) (jobID : Str) : AppState :=
  match s.cronIDs jobID with
  | some eid =>
    { s with
      entries := s.entries.filter (fun e => e.1 != eid)
      cronIDs := fun k => if k = jobID then none else s.cronIDs k }
  | none => s

/-- Embeds `scheduleJob` (part_005, lines 291-317): remove any existing
registration for the job id, then ask the cron engine to register the job
snapshot under its cron expression; `parseOk` stands for the success of the
external cron parser invoked by `AddFunc`, fresh entry ids come from the
monotone counter.  Returns the new state and whether scheduling
succeeded. -/
def scheduleJob (parseOk : Str → Bool) (s : AppState) (job : Job) :
    AppState × Bool :=
  let s1 := unscheduleJob s job.id
  if parseOk job.cron then
    ({ s1 with
        entries := (s1.nextEntryID, job) :: s1.entries
        cronIDs := fun k => if k = job.id then some s1.nextEntryID else s1.cronIDs k
        nextEntryID := s1.nextEntryID + 1 },
      true)
  else (s1, false)

/-- Number of live cron-engine registrations whose callback snapshot carries
the given job id. -/
def regCount (s : AppState) (jobID : Str) : Nat :=
  (s.entries.filter (fun e => e.2.id == jobID)).length

/-- Well-formedness of the scheduler state: every live engine entry is the
one recorded for its job id in the handle map, entry ids are pairwise
distinct, and all issued ids are below the counter. -/
def SchedInv (s : AppState) : Prop :=
  (∀ e jb, (e, jb) ∈ s.entries → s.cronIDs jb.id = some e) ∧
  (∀ e jb, (e, jb) ∈ s.entries → e < s.nextEntryID) ∧
  (s.entries.map Prod.fst).Nodup ∧
  (∀ k e, s.cronIDs k = some e → e < s.nextEntryID)

theorem unscheduleJob_entries_ne (s : AppState) (jobID : Str)
    (hinv : SchedInv s) :
    ∀ e jb, (e, jb) ∈ (unscheduleJob s jobID).entries → jb.id ≠ jobID := by
  obtain ⟨h1, _, _, _⟩ := hinv
  intro e jb hmem hid
  cases hc : s.cronIDs jobID with
  | none =>
    rw [unscheduleJob, hc] at hmem
    have := h1 e jb hmem
    rw [hid, hc] at this
    exact Option.noConfusion this
  | some eid =>
    rw [unscheduleJob, hc] at hmem
    simp only [List.mem_filter, bne_iff_ne, ne_eq] at hmem
    obtain ⟨hmem, hne⟩ := hmem
    have := h1 e jb hmem
    rw [hid, hc] at this
    exact hne (Option.some_injective _ this.symm)

theorem unscheduleJob_inv (s : AppState) (jobID : Str) (hinv : SchedInv s) :
    SchedInv (unscheduleJob s jobID) := by
  obtain ⟨h1, h2, h3, h4⟩ := hinv
  cases hc : s.cronIDs jobID with
  | none => rw [unscheduleJob, hc]; exact ⟨h1, h2, h3, h4⟩
  | some eid =>
    rw [unscheduleJob, hc]
    refine ⟨?_, ?_, ?_, ?_⟩
    · intro e jb hmem
      simp only [List.mem_filter, bne_iff_ne, ne_eq] at hmem
      obtain ⟨hmem, hne⟩ := hmem
      have hcs := h1 e jb hmem
      have hjid : jb.id ≠ jobID := by
        intro hid
        rw [hid, hc] at hcs
        exact hne (Option.some_injective _ hcs.symm)
      simpa [hjid] using hcs
    · intro e jb hmem
      simp only [List.mem_filter] at hmem
      exact h2 e jb hmem.1
    · exact (h3.sublist (List.Sublist.map _ (List.filter_sublist _)))
    · intro k e hk
      by_cases hkj : k = jobID
      · simp [hkj] at hk
      · simp only [hkj, if_false] at hk
        exact h4 k e hk

theorem unscheduleJob_nextEntryID (s : AppState) (jobID : Str) :
    (unscheduleJob s jobID).nextEntryID = s.nextEntryID := by
  cases hc : s.cronIDs jobID <;> simp [unscheduleJob, hc]

/-- Claim C3: schedule is idempotent-replace.  The scheduler invariant holds
initially and is preserved by every `scheduleJob` call (succeeding or not),
and after a successful `scheduleJob` the handle map holds exactly the fresh
handle for the job id, exactly one live cron-engine registration carries the
job id, and any previously registered handle for that id has been removed
from the engine and differs from the fresh one. -/
theorem scheduleJob_idempotent_replace (parseOk : Str → Bool) (s : AppState)
    (job : Job) :
    SchedInv initialState ∧
    (SchedInv s → SchedInv (scheduleJob parseOk s job).1) ∧
    (SchedInv s → (scheduleJob parseOk s job).2 = true →
      (scheduleJob parseOk s job).1.cronIDs job.id = some s.nextEntryID ∧
      regCount (scheduleJob parseOk s job).1 job.id = 1 ∧
      (∀ old, s.cronIDs job.id = some old →
        old ∉ ((scheduleJob parseOk s job).1.entries.map Prod.fst) ∧
        old ≠ s.nextEntryID)) := by
  have hinit : SchedInv initialState := by
    refine ⟨?_, ?_, ?_, ?_⟩ <;> simp [initialState]
  refine ⟨hinit, ?_, ?_⟩
  · intro hinv
    have hinv1 := unscheduleJob_inv s job.id hinv
    obtain ⟨h1, h2, h3, h4⟩ := hinv1
    cases hp : parseOk job.cron with
    | false => simpa [scheduleJob, hp] using ⟨h1, h2, h3, h4⟩
    | true =>
      simp only [scheduleJob, hp, if_true]
      have hnext := unscheduleJob_nextEntryID s job.id
      refine ⟨?_, ?_, ?_, ?_⟩ <;> dsimp only
      · intro e jb hmem
        rcases List.mem_cons.mp hmem with hhd | htl
        · obtain ⟨he, hjb⟩ := Prod.mk.injEq .. ▸ hhd
          subst he
          simp [← hjb]
        · have hcs := h1 e jb htl
          have hne : jb.id ≠ job.id := by
            intro hid
            exact unscheduleJob_entries_ne s job.id hinv e jb htl hid
          simpa [hne] using hcs
      · intro e jb hmem
        rcases List.mem_cons.mp hmem with hhd | htl
        · obtain ⟨he, _⟩ := Prod.mk.injEq .. ▸ hhd
          omega
        · have := h2 e jb htl
          omega
      · simp only [List.map_cons]
        refine List.nodup_cons.mpr ⟨?_, h3⟩
        intro hmem
        obtain ⟨⟨e, jb⟩, hmem, hfst⟩ := List.mem_map.mp hmem
        have := h2 e jb hmem
        simp only at hfst
        omega
      · intro k e hk
        by_cases hkj : k = job.id
        · simp only [hkj, if_true] at hk
          have := Option.some_injective _ hk
          omega
        · simp only [hkj, if_false] at hk
          have := h4 k e hk
          omega
  · intro hinv hok
    have hp : parseOk job.cron = true := by
      by_contra hp
      rw [Bool.not_eq_true] at hp
      simp [scheduleJob, hp] at hok
    have hne := unscheduleJob_entries_ne s job.id hinv
    have hnext := unscheduleJob_nextEntryID s job.id
    refine ⟨?_, ?_, ?_⟩
    · simp [scheduleJob, hp, hnext]
    · simp only [regCount, scheduleJob, hp, if_true, List.filter_cons]
      have hhd : (job.id == job.id) = true := by simp
      simp only [hhd, if_true]
      have htl : (unscheduleJob s job.id).entries.filter
          (fun e => e.2.id == job.id) = [] := by
        rw [List.filter_eq_nil_iff]
        intro ⟨e, jb⟩ hmem
        simp only [beq_iff_eq]
        exact hne e jb hmem
      rw [htl]
      rfl
    · intro old hold
      obtain ⟨_, _, _, h4⟩ := hinv
      have holdlt := h4 job.id old hold
      constructor
      · simp only [scheduleJob, hp, if_true, List.map_cons, List.mem_cons]
        rintro (hfst | hmem)
        · rw [unscheduleJob_nextEntryID s job.id] at hfst
          omega
        · rw [unscheduleJob, hold] at hmem
          obtain ⟨⟨e, jb⟩, hmem, hfst⟩ := List.mem_map.mp hmem
          simp only [List.mem_filter, bne_iff_ne, ne_eq] at hmem
          exact hmem.2 hfst
      · omega

/-- Splits a character list at every occurrence of the separator character,
keeping empty pieces. -/
def splitOnChar (c : Char) : Str → List Str
  | [] => [[]]
  | x :: xs =>
    if x = c then [] :: splitOnChar c xs
    else
      match splitOnChar c xs with
      | [] => [[x]]
      | h :: t => (x :: h) :: t

/-- Numeric value of a decimal digit character. -/
def digitVal (c : Char) : Option Nat :=
  if '0' ≤ c ∧ c ≤ '9' then some (c.toNat - 48) else none

/-- Parses a nonempty all-digit character list as a decimal number. -/
def parseNat (s : Str) : Option Nat :=
  if s = [] then none
  else
    s.foldl
      (fun acc c =>
        match acc, digitVal c with
        | some n, some d => some (n * 10 + d)
        | _, _ => none)
      (some 0)

/-- Modelled from the spec: acceptance of a single item of a standard cron
field (a star, a value, or a range, each with an optional step) against the
bounds of the field.  Part of the model of the external robfig cron parser,
which is a third-party dependency of the repository and not under src. -/
def cronItemOk (lo hi : Nat) (item : Str) : Bool :=
  let parts := splitOnChar '/' item
  let stepOk : Bool :=
    match parts with
    | [_] => true
    | [_, st] =>
      match parseNat st with
      | some k => decide (1 ≤ k)
      | none => false
    | _ => false
  let core : Str :=
    match parts with
    | c :: _ => c
    | [] => []
  let coreOk : Bool :=
    if core = str "*" then true
    else
      match splitOnChar '-' core with
      | [n] =>
        match parseNat n with
        | some v => decide (lo ≤ v) && decide (v ≤ hi)
        | none => false
      | [n, m] =>
        match parseNat n, parseNat m with
        | some v, some w => decide (lo ≤ v) && decide (v ≤ w) && decide (w ≤ hi)
        | _, _ => false
      | _ => false
  coreOk && stepOk

/-- Modelled from the spec: acceptance of one whole cron field, a
comma-separated list of items. -/
def cronFieldOk (lo hi : Nat) (f : Str) : Bool :=
  (splitOnChar ',' f).all (cronItemOk lo hi)

/-- Modelled from the spec: success of `cron.ParseStandard` from the
external robfig cron library (a dependency, not under src), which must
accept standard 5-field cron syntax.  The model checks five
whitespace-separated fields against the standard bounds (minute 0-59, hour
0-23, day-of-month 1-31, month 1-12, day-of-week 0-6) and omits the
named-month/day and descriptor extensions of the library. -/
def parseStandard (s : Str) : Bool :=
  match (splitOnChar ' ' s).filter (fun f => !f.isEmpty) with
  | [mi, hr, dom, mon, dow] =>
    cronFieldOk 0 59 mi && cronFieldOk 0 23 hr && cronFieldOk 1 31 dom &&
      cronFieldOk 1 12 mon && cronFieldOk 0 6 dow
  | _ => false

/-- Decimal digits of a positive number, most significant first; the fuel
argument bounds the loop and is structurally decreasing. -/
def natToCharsAux : Nat → Nat → Str → Str
  | 0, _, acc => acc
  | fuel + 1, n, acc =>
    if n = 0 then acc
    else natToCharsAux fuel (n / 10) (Nat.digitChar (n % 10) :: acc)

/-- Embeds Go `%d` formatting of a nonnegative number. -/
def natToChars (n : Nat) : Str :=
  if n = 0 then str "0" else natToCharsAux n n []

/-- Embeds Go `%d` formatting of an `int`. -/
def intToChars (i : Int) : Str :=
  if i < 0 then '-' :: natToChars i.natAbs else natToChars i.natAbs

/-- Outcome of a job CRUD handler, abstracting the HTTP status and payload
written by part_005. -/
inductive JobResponse where
  | badRequest
  | notFound
  | schedFailed
  | created (job : Job)
  | updated (job : Job)
  | deleted
deriving DecidableEq, Repr

/-- Embeds `createJob` (part_005, lines 514-551): generate an id when the
request has none, validate the cron expression before touching any state,
insert the job into the map, register it with the scheduler, then write the
job set to disk; a failed disk write only logs (`saveOk` is the success of
`saveJobs`, `nowNano` the clock value used for id generation). -/
def createJob (parseOk : Str → Bool) (saveOk : Bool) (nowNano : Nat)
    (s : AppState) (incoming : Job) : AppState × JobResponse :=
  let job :=
    if incoming.id = [] then { incoming with id := str "job-" ++ natToChars nowNano }
    else incoming
  if parseOk job.cron = false then (s, JobResponse.badRequest)
  else
    let s1 := { s with jobs := fun k => if k = job.id then some job else s.jobs k }
    let sched := scheduleJob parseOk s1 job
    if sched.2 = false then (sched.1, JobResponse.schedFailed)
    else
      let s3 := if saveOk then { sched.1 with persisted := sched.1.jobs } else sched.1
      (s3, JobResponse.created job)

/-- Embeds `updateJob` (part_005, lines 553-597): force the path id onto the
body, validate the cron expression, require the job to exist, replace it in
the map, reschedule, then write the job set to disk (logging any write
failure). -/
def updateJob (parseOk : Str → Bool) (saveOk : Bool) (s : AppState)
    (jobID : Str) (incoming : Job) : AppState × JobResponse :=
  let job := { incoming with id := jobID }
  if parseOk job.cron = false then (s, JobResponse.badRequest)
  else if (s.jobs jobID).isNone then (s, JobResponse.notFound)
  else
    let s1 := { s with jobs := fun k => if k = jobID then some job else s.jobs k }
    let sched := scheduleJob parseOk s1 job
    if sched.2 = false then (sched.1, JobResponse.schedFailed)
    else
      let s3 := if saveOk then { sched.1 with persisted := sched.1.jobs } else sched.1
      (s3, JobResponse.updated job)

/-- Embeds `deleteJob` (part_005, lines 599-624): require the job to exist,
unschedule it, remove it from the map, then write the job set to disk
(logging any write failure). -/
def deleteJob (saveOk : Bool) (s : AppState) (jobID : Str) :
    AppState × JobResponse :=
  if (s.jobs jobID).isNone then (s, JobResponse.notFound)
  else
    let s1 := unscheduleJob s jobID
    let s2 := { s1 with jobs := fun k => if k = jobID then none else s1.jobs k }
    let s3 := if saveOk then { s2 with persisted := s2.jobs } else s2
    (s3, JobResponse.deleted)

theorem unscheduleJob_jobs (s : AppState) (jobID : Str) :
    (unscheduleJob s jobID).jobs = s.jobs := by
  cases hc : s.cronIDs jobID <;> simp [unscheduleJob, hc]

theorem unscheduleJob_persisted (s : AppState) (jobID : Str) :
    (unscheduleJob s jobID).persisted = s.persisted := by
  cases hc : s.cronIDs jobID <;> simp [unscheduleJob, hc]

theorem scheduleJob_jobs (parseOk : Str → Bool) (s : AppState) (job : Job) :
    (scheduleJob parseOk s job).1.jobs = s.jobs := by
  cases hp : parseOk job.cron <;>
    simp [scheduleJob, hp, unscheduleJob_jobs]

theorem scheduleJob_persisted (parseOk : Str → Bool) (s : AppState) (job : Job) :
    (scheduleJob parseOk s job).1.persisted = s.persisted := by
  cases hp : parseOk job.cron <;>
    simp [scheduleJob, hp, unscheduleJob_persisted]

theorem scheduleJob_ok (parseOk : Str → Bool) (s : AppState) (job : Job)
    (hp : parseOk job.cron = true) : (scheduleJob parseOk s job).2 = true := by
  simp [scheduleJob, hp]

theorem createJob_success (parseOk : Str → Bool) (saveOk : Bool) (now : Nat)
    (s : AppState) (incoming : Job) (hp : parseOk incoming.cron = true)
    (hid : incoming.id ≠ []) :
    (createJob parseOk saveOk now s incoming).2 = JobResponse.created incoming ∧
    (createJob parseOk saveOk now s incoming).1.jobs incoming.id = some incoming ∧
    (saveOk = false →
      (createJob parseOk saveOk now s incoming).1.persisted = s.persisted) := by
  have hjob : (if incoming.id = [] then
      { incoming with id := str "job-" ++ natToChars now } else incoming) = incoming := by
    simp [hid]
  cases saveOk with
  | true =>
    refine ⟨?_, ?_, fun h => nomatch h⟩
    · simp [createJob, hjob, hp, scheduleJob_ok]
    · simp [createJob, hjob, hp, scheduleJob_ok, scheduleJob_jobs]
  | false =>
    refine ⟨?_, ?_, fun _ => ?_⟩
    · simp [createJob, hjob, hp, scheduleJob_ok]
    · simp [createJob, hjob, hp, scheduleJob_ok, scheduleJob_jobs]
    · simp [createJob, hjob, hp, scheduleJob_ok, scheduleJob_persisted]

theorem updateJob_success (parseOk : Str → Bool) (saveOk : Bool)
    (s : AppState) (jobID : Str) (incoming : Job)
    (hp : parseOk incoming.cron = true) (hex : (s.jobs jobID).isSome = true) :
    (updateJob parseOk saveOk s jobID incoming).2 =
      JobResponse.updated { incoming with id := jobID } ∧
    (updateJob parseOk saveOk s jobID incoming).1.jobs jobID =
      some { incoming with id := jobID } ∧
    (saveOk = false →
      (updateJob parseOk saveOk s jobID incoming).1.persisted = s.persisted) := by
  have hnone : (s.jobs jobID).isNone = false := by
    cases hj : s.jobs jobID with
    | none => rw [hj] at hex; simp at hex
    | some j => rfl
  have hcr : parseOk ({ incoming with id := jobID } : Job).cron = true := hp
  cases saveOk with
  | true =>
    refine ⟨?_, ?_, fun h => nomatch h⟩
    · simp [updateJob, hnone, hcr, scheduleJob_ok]
    · simp [updateJob, hnone, hcr, scheduleJob_ok, scheduleJob_jobs]
  | false =>
    refine ⟨?_, ?_, fun _ => ?_⟩
    · simp [updateJob, hnone, hcr, scheduleJob_ok]
    · simp [updateJob, hnone, hcr, scheduleJob_ok, scheduleJob_jobs]
    · simp [updateJob, hnone, hcr, scheduleJob_ok, scheduleJob_persisted]

theorem deleteJob_success (saveOk : Bool) (s : AppState) (jobID : Str)
    (hex : (s.jobs jobID).isSome = true) :
    (deleteJob saveOk s jobID).2 = JobResponse.deleted ∧
    (deleteJob saveOk s jobID).1.jobs jobID = none ∧
    (saveOk = false → (deleteJob saveOk s jobID).1.persisted = s.persisted) := by
  have hnone : (s.jobs jobID).isNone = false := by
    cases hj : s.jobs jobID with
    | none => rw [hj] at hex; simp at hex
    | some j => rfl
  cases saveOk with
  | true =>
    refine ⟨?_, ?_, fun h => nomatch h⟩
    · simp [deleteJob, hnone]
    · simp [deleteJob, hnone]
  | false =>
    refine ⟨?_, ?_, fun _ => ?_⟩
    · simp [deleteJob, hnone]
    · simp [deleteJob, hnone]
    · simp [deleteJob, hnone, unscheduleJob_persisted]

/-- Validity of jobs at rest: every job in the in-memory map and in the
persisted file carries a cron expression the parser accepts. -/
def JobsValid (parseOk : Str → Bool) (s : AppState) : Prop :=
  (∀ k j, s.jobs k = some j → parseOk j.cron = true) ∧
  (∀ k j, s.persisted k = some j → parseOk j.cron = true)

theorem resolveId_cron (incoming : Job) (now : Nat) :
    (if incoming.id = [] then
      { incoming with id := str "job-" ++ natToChars now }
    else incoming).cron = incoming.cron := by
  by_cases h : incoming.id = [] <;> simp [h]

theorem reject_invalid_cron (parseOk : Str → Bool) (saveOk : Bool)
    (now : Nat) (s : AppState) (incoming : Job) (jobID : Str)
    (hp : parseOk incoming.cron = false) :
    createJob parseOk saveOk now s incoming = (s, JobResponse.badRequest) ∧
    updateJob parseOk saveOk s jobID incoming = (s, JobResponse.badRequest) := by
  constructor
  · rw [createJob]
    rw [show (parseOk
        (if incoming.id = [] then
          { incoming with id := str "job-" ++ natToChars now }
        else incoming).cron) = false by rw [resolveId_cron]; exact hp]
    rfl
  · rw [updateJob]
    rw [show (parseOk ({ incoming with id := jobID } : Job).cron) = false from hp]
    rfl

/-- Claim C4: create and update requests whose cron expression the parser
rejects are refused with a validation error and leave the whole state (job
map, cron registrations, persisted file) untouched, and validity of all
cron expressions at rest is an invariant: it holds initially and is
preserved by create, update and delete. -/
theorem invalid_cron_rejected (parseOk : Str → Bool) (saveOk : Bool)
    (now : Nat) (s : AppState) (incoming : Job) (jobID : Str) :
    (parseOk incoming.cron = false →
      createJob parseOk saveOk now s incoming = (s, JobResponse.badRequest) ∧
      updateJob parseOk saveOk s jobID incoming = (s, JobResponse.badRequest)) ∧
    JobsValid parseOk initialState ∧
    (JobsValid parseOk s →
      JobsValid parseOk (createJob parseOk saveOk now s incoming).1 ∧
      JobsValid parseOk (updateJob parseOk saveOk s jobID incoming).1 ∧
      JobsValid parseOk (deleteJob saveOk s jobID).1) := by
  refine ⟨fun hp => reject_invalid_cron parseOk saveOk now s incoming jobID hp,
    ⟨by simp [initialState], by simp [initialState]⟩, ?_⟩
  · intro hvalid
    have hstep : ∀ base : AppState, ∀ job : Job, parseOk job.cron = true →
        JobsValid parseOk base →
        JobsValid parseOk
          (if saveOk then
            { (scheduleJob parseOk
                { base with jobs := fun k => if k = job.id then some job else base.jobs k }
                job).1 with
              persisted := (scheduleJob parseOk
                { base with jobs := fun k => if k = job.id then some job else base.jobs k }
                job).1.jobs }
          else (scheduleJob parseOk
            { base with jobs := fun k => if k = job.id then some job else base.jobs k }
            job).1) := by
      intro base job hpj hb
      have hjobs : (scheduleJob parseOk
          { base with jobs := fun k => if k = job.id then some job else base.jobs k }
          job).1.jobs = fun k => if k = job.id then some job else base.jobs k := by
        rw [scheduleJob_jobs]
      have hins : ∀ k j,
          (fun k => if k = job.id then some job else base.jobs k) k = some j →
          parseOk j.cron = true := by
        intro k j hk
        by_cases hkj : k = job.id
        · simp only [hkj, if_true] at hk
          rw [← Option.some_injective _ hk]
          exact hpj
        · simp only [hkj, if_false] at hk
          exact hb.1 k j hk
      cases saveOk with
      | true =>
        rw [if_pos rfl]
        refine ⟨?_, ?_⟩ <;> dsimp only <;> rw [hjobs] <;> exact hins
      | false =>
        rw [if_neg Bool.false_ne_true]
        refine ⟨?_, ?_⟩
        · rw [hjobs]
          exact hins
        · rw [scheduleJob_persisted]
          exact hb.2
    refine ⟨?_, ?_, ?_⟩
    · rw [createJob]
      cases hp : parseOk (if incoming.id = [] then
          { incoming with id := str "job-" ++ natToChars now }
        else incoming).cron with
      | false => simpa using hvalid
      | true =>
        simp only [Bool.true_eq_false, if_false]
        have hok := scheduleJob_ok parseOk
          { s with jobs := fun k =>
              if k = (if incoming.id = [] then
                  { incoming with id := str "job-" ++ natToChars now }
                else incoming).id
              then some (if incoming.id = [] then
                  { incoming with id := str "job-" ++ natToChars now }
                else incoming)
              else s.jobs k }
          (if incoming.id = [] then
            { incoming with id := str "job-" ++ natToChars now }
          else incoming) hp
        rw [hok]
        simp only [Bool.true_eq_false, if_false]
        exact hstep s _ hp hvalid
    · rw [updateJob]
      cases hp : parseOk ({ incoming with id := jobID } : Job).cron with
      | false => simpa using hvalid
      | true =>
        simp only [Bool.true_eq_false, if_false]
        cases hnf : (s.jobs jobID).isNone with
        | true => simpa using hvalid
        | false =>
          simp only [Bool.false_eq_true, if_false]
          have hok := scheduleJob_ok parseOk
            { s with jobs := fun k =>
                if k = jobID then some { incoming with id := jobID } else s.jobs k }
            { incoming with id := jobID } hp
          have hid : ({ incoming with id := jobID } : Job).id = jobID := rfl
          rw [show (fun k => if k = ({ incoming with id := jobID } : Job).id
              then some ({ incoming with id := jobID } : Job) else s.jobs k) =
              (fun k => if k = jobID then some { incoming with id := jobID }
              else s.jobs k) from rfl] at hok
          rw [hok]
          simp only [Bool.true_eq_false, if_false]
          exact hstep s { incoming with id := jobID } hp hvalid
    · rw [deleteJob]
      cases hnf : (s.jobs jobID).isNone with
      | true => simpa using hvalid
      | false =>
        simp only [Bool.false_eq_true, if_false]
        have hjobs : ∀ k j,
            (fun k => if k = jobID then none
              else (unscheduleJob s jobID).jobs k) k = some j →
            parseOk j.cron = true := by
          intro k j hk
          by_cases hkj : k = jobID
          · simp [hkj] at hk
          · simp only [hkj, if_false] at hk
            rw [unscheduleJob_jobs] at hk
            exact hvalid.1 k j hk
        cases saveOk with
        | true => exact ⟨hjobs, hjobs⟩
        | false =>
          refine ⟨hjobs, ?_⟩
          show ∀ k j, (unscheduleJob s jobID).persisted k = some j →
            parseOk j.cron = true
          rw [unscheduleJob_persisted]
          exact hvalid.2

/-- Sample well-formed job used by concrete witnesses. -/
def sampleJob : Job :=
  { id := str "j1"
    cron := str "*/5 * * * *"
    dashboardUID := str "abc123"
    slug := str "dash"
    panelId := some 5
    timeFrom := str "now-6h"
    timeTo := str "now"
    width := 1000
    height := 500
    scale := 1
    format := str "pdf"
    recipients := [str "ops@example.com"]
    subject := str "Report"
    body := str "See attached."
    Variables := [(str "host", str "server-01")] }

/-- Sample job carrying a cron expression the parser rejects. -/
def badCronJob : Job :=
  { sampleJob with id := str "j2", cron := str "not-a-cron" }

/-- Sample job with an empty recipient list and a valid cron expression. -/
def emptyRecipientsJob : Job :=
  { sampleJob with id := str "j3", cron := str "* * * * *", recipients := [] }

/-- Witness for claim C3: scheduling the sample job from the initial state
installs exactly one registration under its id. -/
theorem scheduleJob_idempotent_replace_witness :
    (scheduleJob parseStandard initialState sampleJob).1.cronIDs sampleJob.id =
      some initialState.nextEntryID ∧
    regCount (scheduleJob parseStandard initialState sampleJob).1 sampleJob.id = 1 := by
  have hinv : SchedInv initialState :=
    (scheduleJob_idempotent_replace parseStandard initialState sampleJob).1
  have h := (scheduleJob_idempotent_replace parseStandard initialState sampleJob).2.2
    hinv (by decide)
  exact ⟨h.1, h.2.1⟩

/-- Witness for claim C4: the create request carrying the cron expression
"not-a-cron" is rejected and leaves the initial state unchanged, and the
initial state is valid at rest. -/
theorem invalid_cron_rejected_witness :
    createJob parseStandard true 0 initialState badCronJob =
      (initialState, JobResponse.badRequest) ∧
    JobsValid parseStandard initialState := by
  have h := invalid_cron_rejected parseStandard true 0 initialState badCronJob
    (str "j2")
  exact ⟨(h.1 (by decide)).1, h.2.1⟩

/-- Counterexample for claim C8: a create request whose recipient list is
empty is not rejected; with a valid cron expression it is accepted into the
job store. -/
theorem createJob_accepts_empty_recipients :
    (createJob parseStandard true 0 initialState emptyRecipientsJob).2 =
      JobResponse.created emptyRecipientsJob ∧
    (createJob parseStandard true 0 initialState emptyRecipientsJob).1.jobs
      (str "j3") = some emptyRecipientsJob ∧
    emptyRecipientsJob.recipients = [] := by
  decide

/-- Claim C8 (amended): the only validations at the API boundary are the
well-formedness of the request body and of the cron expression.  A create
or update request with an invalid cron expression is rejected with the
state unchanged, but a request with an empty recipient list (or any other
missing field) is accepted: the job is stored and the handler reports
success, with no recipient validation anywhere. -/
theorem job_requests_validate_only_cron (parseOk : Str → Bool) (saveOk : Bool)
    (now : Nat) (s : AppState) (incoming : Job) (jobID : Str) :
    (parseOk incoming.cron = false →
      createJob parseOk saveOk now s incoming = (s, JobResponse.badRequest) ∧
      updateJob parseOk saveOk s jobID incoming = (s, JobResponse.badRequest)) ∧
    (parseOk incoming.cron = true → incoming.id ≠ [] →
      (createJob parseOk saveOk now s incoming).2 = JobResponse.created incoming ∧
      (createJob parseOk saveOk now s incoming).1.jobs incoming.id = some incoming) ∧
    (parseOk incoming.cron = true → (s.jobs jobID).isSome = true →
      (updateJob parseOk saveOk s jobID incoming).2 =
        JobResponse.updated { incoming with id := jobID } ∧
      (updateJob parseOk saveOk s jobID incoming).1.jobs jobID =
        some { incoming with id := jobID }) := by
  refine ⟨fun hp => reject_invalid_cron parseOk saveOk now s incoming jobID hp,
    ?_, ?_⟩
  · intro hp hid
    have h := createJob_success parseOk saveOk now s incoming hp hid
    exact ⟨h.1, h.2.1⟩
  · intro hp hex
    have h := updateJob_success parseOk saveOk s jobID incoming hp hex
    exact ⟨h.1, h.2.1⟩

/-- Witness for claim C8 (amended): the empty-recipient job with a valid
cron expression is accepted and stored. -/
theorem job_requests_validate_only_cron_witness :
    (createJob parseStandard true 0 initialState emptyRecipientsJob).2 =
      JobResponse.created emptyRecipientsJob ∧
    (createJob parseStandard true 0 initialState emptyRecipientsJob).1.jobs
      emptyRecipientsJob.id = some emptyRecipientsJob :=
  (job_requests_validate_only_cron parseStandard true 0 initialState
    emptyRecipientsJob (str "j3")).2.1 (by decide) (by decide)

/-- Claim C9: when the disk write fails after a create, update or delete has
mutated the in-memory job map, the mutation is kept, the handler still
reports success, and only the persisted file is left behind. -/
theorem save_failure_not_rolled_back (parseOk : Str → Bool) (now : Nat)
    (s : AppState) (incoming : Job) (jobID : Str) :
    (parseOk incoming.cron = true → incoming.id ≠ [] →
      (createJob parseOk false now s incoming).2 = JobResponse.created incoming ∧
      (createJob parseOk false now s incoming).1.jobs incoming.id = some incoming ∧
      (createJob parseOk false now s incoming).1.persisted = s.persisted) ∧
    (parseOk incoming.cron = true → (s.jobs jobID).isSome = true →
      (updateJob parseOk false s jobID incoming).2 =
        JobResponse.updated { incoming with id := jobID } ∧
      (updateJob parseOk false s jobID incoming).1.jobs jobID =
        some { incoming with id := jobID } ∧
      (updateJob parseOk false s jobID incoming).1.persisted = s.persisted) ∧
    ((s.jobs jobID).isSome = true →
      (deleteJob false s jobID).2 = JobResponse.deleted ∧
      (deleteJob false s jobID).1.jobs jobID = none ∧
      (deleteJob false s jobID).1.persisted = s.persisted) := by
  refine ⟨?_, ?_, ?_⟩
  · intro hp hid
    have h := createJob_success parseOk false now s incoming hp hid
    exact ⟨h.1, h.2.1, h.2.2 rfl⟩
  · intro hp hex
    have h := updateJob_success parseOk false s jobID incoming hp hex
    exact ⟨h.1, h.2.1, h.2.2 rfl⟩
  · intro hex
    have h := deleteJob_success false s jobID hex
    exact ⟨h.1, h.2.1, h.2.2 rfl⟩

/-- Witness for claim C9: creating the sample job while the disk write
fails stores it in memory, reports success, and leaves the persisted file
untouched. -/
theorem save_failure_not_rolled_back_witness :
    (createJob parseStandard false 0 initialState sampleJob).2 =
      JobResponse.created sampleJob ∧
    (createJob parseStandard false 0 initialState sampleJob).1.jobs
      sampleJob.id = some sampleJob ∧
    (createJob parseStandard false 0 initialState sampleJob).1.persisted =
      initialState.persisted :=
  (save_failure_not_rolled_back parseStandard 0 initialState sampleJob
    (str "j1")).1 (by decide) (by decide)

/-- Embeds the URL construction of `renderReport` (part_005, lines 358-375):
the single-panel and full-dashboard variants differ by the panel parameter
and the kiosk marker, and one `&var-<name>=<value>` pair is appended per
variables entry, all without any escaping. -/
def renderURL (grafanaURL : Str) (job : Job) : Str :=
  let base :=
    match job.panelId with
    | some pid =>
      grafanaURL ++ str "/render/d-solo/" ++ job.dashboardUID ++ str "/" ++
        job.slug ++ str "?panelId=" ++ intToChars pid ++ str "&from=" ++
        job.timeFrom ++ str "&to=" ++ job.timeTo ++ str "&width=" ++
        intToChars job.width ++ str "&height=" ++ intToChars job.height ++
        str "&scale=" ++ intToChars job.scale ++ str "&tz=UTC"
    | none =>
      grafanaURL ++ str "/render/d/" ++ job.dashboardUID ++ str "/" ++
        job.slug ++ str "?from=" ++ job.timeFrom ++ str "&to=" ++ job.timeTo ++
        str "&width=" ++ intToChars job.width ++ str "&height=" ++
        intToChars job.height ++ str "&scale=" ++ intToChars job.scale ++
        str "&kiosk&tz=UTC"
  job.Variables.foldl
    (fun u kv => u ++ str "&var-" ++ kv.1 ++ str "=" ++ kv.2) base

/-- Portion of a URL after its first question mark, if any. -/
def afterQuery : Str → Option Str
  | [] => none
  | c :: cs => if c = '?' then some cs else afterQuery cs

/-- Query parameter segments of a URL: the pieces between ampersands after
the first question mark. -/
def queryParams (url : Str) : List Str :=
  match afterQuery url with
  | none => []
  | some q => splitOnChar '&' q

/-- Name of a query parameter segment: the part before the first equals
sign (the whole segment for a value-less parameter such as kiosk). -/
def paramName (p : Str) : Str := p.takeWhile (fun c => c != '=')

/-- Value of a query parameter segment: the part after the first equals. -/
def paramValue (p : Str) : Str := (p.dropWhile (fun c => c != '=')).drop 1

/-- Whether the URL carries a query parameter with the given name. -/
def hasParam (url : Str) (nm : Str) : Bool :=
  (queryParams url).any (fun p => paramName p == nm)

/-- Whether the URL carries a query parameter with the given name and
value. -/
def hasParamVal (url : Str) (nm v : Str) : Bool :=
  (queryParams url).any (fun p => paramName p == nm && paramValue p == v)

/-- Whether the first list is an initial segment of the second. -/
def isPre : Str → Str → Bool
  | [], _ => true
  | _ :: _, [] => false
  | a :: as, b :: bs => a == b && isPre as bs

/-- Whether the first list occurs contiguously inside the second. -/
def hasSub (t : Str) : Str → Bool
  | [] => isPre t []
  | c :: m => isPre t (c :: m) || hasSub t m

theorem isPre_self (t : Str) : isPre t t = true := by
  induction t with
  | nil => rfl
  | cons a as ih => simp [isPre, ih]

theorem isPre_append_right (t m x : Str) (h : isPre t m = true) :
    isPre t (m ++ x) = true := by
  induction t generalizing m with
  | nil => rfl
  | cons a as ih =>
    cases m with
    | nil => exact absurd h (by simp [isPre])
    | cons b bs =>
      simp only [isPre, Bool.and_eq_true, beq_iff_eq] at h
      simp only [List.cons_append, isPre, Bool.and_eq_true, beq_iff_eq]
      exact ⟨h.1, ih bs h.2⟩

theorem hasSub_of_isPre (t m : Str) (h : isPre t m = true) :
    hasSub t m = true := by
  cases m with
  | nil => exact h
  | cons c m2 => simp [hasSub, h]

theorem hasSub_cons (t m : Str) (c : Char) (h : hasSub t m = true) :
    hasSub t (c :: m) = true := by
  simp [hasSub, h]

theorem hasSub_append_right (t m x : Str) (h : hasSub t m = true) :
    hasSub t (x ++ m) = true := by
  induction x with
  | nil => exact h
  | cons c cs ih => exact hasSub_cons t (cs ++ m) c ih

theorem hasSub_append_left (t m x : Str) (h : hasSub t m = true) :
    hasSub t (m ++ x) = true := by
  induction m with
  | nil =>
    cases t with
    | nil =>
      cases x with
      | nil => rfl
      | cons c cs => simp [hasSub, isPre]
    | cons a as => exact absurd h (by simp [hasSub, isPre])
  | cons c m2 ih =>
    simp only [hasSub, Bool.or_eq_true] at h
    rcases h with h | h
    · exact hasSub_of_isPre _ _ (isPre_append_right t (c :: m2) x h)
    · exact hasSub_cons _ _ _ (ih h)

theorem hasSub_mid (t x y : Str) : hasSub t (x ++ (t ++ y)) = true := by
  refine hasSub_append_right t (t ++ y) x ?_
  exact hasSub_append_left t t y (hasSub_of_isPre t t (isPre_self t))

theorem hasSub_here (t x y : Str) : hasSub t (x ++ t ++ y) = true := by
  rw [List.append_assoc]
  refine hasSub_append_right t (t ++ y) x ?_
  exact hasSub_append_left t t y (hasSub_of_isPre t t (isPre_self t))

theorem splitOnChar_not_mem (c : Char) (xs : Str) (h : c ∉ xs) :
    splitOnChar c xs = [xs] := by
  induction xs with
  | nil => rfl
  | cons x rest ih =>
    have hx : x ≠ c := fun he => h (he ▸ List.mem_cons_self x rest)
    have hrest : c ∉ rest := fun hm => h (List.mem_cons_of_mem x hm)
    rw [splitOnChar, if_neg hx, ih hrest]

theorem splitOnChar_append (c : Char) (xs ys : Str) (h : c ∉ xs) :
    splitOnChar c (xs ++ c :: ys) = xs :: splitOnChar c ys := by
  induction xs with
  | nil => simp [splitOnChar]
  | cons x rest ih =>
    have hx : x ≠ c := fun he => h (he ▸ List.mem_cons_self x rest)
    have hrest : c ∉ rest := fun hm => h (List.mem_cons_of_mem x hm)
    rw [List.cons_append, splitOnChar, if_neg hx, ih hrest]

theorem afterQuery_append (xs ys : Str) (h : '?' ∉ xs) :
    afterQuery (xs ++ '?' :: ys) = some ys := by
  induction xs with
  | nil => simp [afterQuery]
  | cons x rest ih =>
    have hx : x ≠ '?' := fun he => h (he ▸ List.mem_cons_self x rest)
    have hrest : '?' ∉ rest := fun hm => h (List.mem_cons_of_mem x hm)
    rw [List.cons_append, afterQuery, if_neg hx, ih hrest]

/-- Chunk contributed to the render URL by one variables entry. -/
def varChunk (kv : Str × Str) : Str := str "var-" ++ kv.1 ++ '=' :: kv.2

/-- First query chunk followed by ampersand-prefixed chunks. -/
def ampJoin (first : Str) (chunks : List Str) : Str :=
  first ++ (chunks.map (fun c => '&' :: c)).flatten

theorem ampJoin_cons (first c : Str) (cs : List Str) :
    ampJoin first (c :: cs) = first ++ '&' :: ampJoin c cs := by
  simp [ampJoin]

theorem splitOnChar_ampJoin (first : Str) (chunks : List Str)
    (h1 : '&' ∉ first) (h2 : ∀ c ∈ chunks, '&' ∉ c) :
    splitOnChar '&' (ampJoin first chunks) = first :: chunks := by
  induction chunks generalizing first with
  | nil =>
    rw [ampJoin]
    simp only [List.map_nil, List.flatten_nil, List.append_nil]
    exact splitOnChar_not_mem '&' first h1
  | cons c cs ih =>
    rw [ampJoin_cons, splitOnChar_append '&' first _ h1]
    rw [ih c (h2 c (List.mem_cons_self c cs))
      (fun d hd => h2 d (List.mem_cons_of_mem c hd))]

theorem foldl_vars (base : Str) (vars : List (Str × Str)) :
    vars.foldl (fun u kv => u ++ str "&var-" ++ kv.1 ++ str "=" ++ kv.2) base =
      base ++ (vars.map (fun kv => '&' :: varChunk kv)).flatten := by
  induction vars generalizing base with
  | nil => simp
  | cons kv rest ih =>
    rw [List.foldl_cons, ih]
    simp [varChunk, str, List.append_assoc]

theorem natToCharsAux_mem (fuel : Nat) :
    ∀ (n : Nat) (acc : Str), ∀ c ∈ natToCharsAux fuel n acc,
      c ∈ acc ∨ c.isDigit = true := by
  induction fuel with
  | zero => intro n acc c hc; exact Or.inl hc
  | succ fuel ih =>
    intro n acc c hc
    rw [natToCharsAux] at hc
    by_cases h : n = 0
    · rw [if_pos h] at hc
      exact Or.inl hc
    · rw [if_neg h] at hc
      rcases ih (n / 10) (Nat.digitChar (n % 10) :: acc) c hc with hacc | hd
      · rcases List.mem_cons.mp hacc with he | hacc
        · subst he
          have hd10 : n % 10 < 10 := Nat.mod_lt n (by omega)
          have : ∀ d, d < 10 → (Nat.digitChar d).isDigit = true := by decide
          exact Or.inr (this (n % 10) hd10)
        · exact Or.inl hacc
      · exact Or.inr hd

theorem natToChars_mem (n : Nat) : ∀ c ∈ natToChars n, c.isDigit = true := by
  intro c hc
  rw [natToChars] at hc
  by_cases h : n = 0
  · rw [if_pos h] at hc
    rcases List.mem_singleton.mp hc with rfl
    decide
  · rw [if_neg h] at hc
    rcases natToCharsAux_mem n n [] c hc with habs | hd
    · exact absurd habs (List.not_mem_nil c)
    · exact hd

theorem intToChars_mem (i : Int) :
    ∀ c ∈ intToChars i, c.isDigit = true ∨ c = '-' := by
  intro c hc
  rw [intToChars] at hc
  by_cases h : i < 0
  · rw [if_pos h] at hc
    rcases List.mem_cons.mp hc with rfl | hc
    · exact Or.inr rfl
    · exact Or.inl (natToChars_mem _ c hc)
  · rw [if_neg h] at hc
    exact Or.inl (natToChars_mem _ c hc)

theorem meta_not_mem_intToChars (i : Int) (c : Char)
    (hc : c.isDigit = false) (hm : c ≠ '-') : c ∉ intToChars i := by
  intro hmem
  rcases intToChars_mem i c hmem with hd | he
  · rw [hc] at hd; exact Bool.noConfusion hd
  · exact hm he

theorem takeWhile_append_all (p : Char → Bool) (a b : Str)
    (h : ∀ c ∈ a, p c = true) :
    (a ++ b).takeWhile p = a ++ b.takeWhile p := by
  induction a with
  | nil => simp
  | cons x xs ih =>
    have hx := h x (List.mem_cons_self x xs)
    simp only [List.cons_append, List.takeWhile_cons, hx, if_true]
    rw [ih (fun c hc => h c (List.mem_cons_of_mem x hc))]

theorem dropWhile_append_all (p : Char → Bool) (a b : Str)
    (h : ∀ c ∈ a, p c = true) :
    (a ++ b).dropWhile p = b.dropWhile p := by
  induction a with
  | nil => simp
  | cons x xs ih =>
    have hx := h x (List.mem_cons_self x xs)
    simp only [List.cons_append, List.dropWhile_cons, hx, if_true]
    exact ih (fun c hc => h c (List.mem_cons_of_mem x hc))

theorem paramName_eq (nm rest : Str) (h : '=' ∉ nm) :
    paramName (nm ++ '=' :: rest) = nm := by
  have hall : ∀ c ∈ nm, (c != '=') = true := by
    intro c hc
    simp only [bne_iff_ne, ne_eq]
    exact fun he => h (he ▸ hc)
  rw [paramName, takeWhile_append_all _ _ _ hall]
  simp [List.takeWhile_cons]

theorem paramValue_eq (nm rest : Str) (h : '=' ∉ nm) :
    paramValue (nm ++ '=' :: rest) = rest := by
  have hall : ∀ c ∈ nm, (c != '=') = true := by
    intro c hc
    simp only [bne_iff_ne, ne_eq]
    exact fun he => h (he ▸ hc)
  rw [paramValue, dropWhile_append_all _ _ _ hall]
  simp [List.dropWhile_cons]

/-- Query chunk of the shape name=value. -/
def mkChunk (nm v : Str) : Str := nm ++ '=' :: v

/-- Freedom from the URL metacharacters that the render client never
escapes. -/
def CleanStr (x : Str) : Prop := '&' ∉ x ∧ '?' ∉ x ∧ '=' ∉ x

/-- Query chunks of a single-panel render URL after the leading panel
parameter. -/
def panelChunks (job : Job) : List Str :=
  mkChunk (str "from") job.timeFrom :: mkChunk (str "to") job.timeTo ::
    mkChunk (str "width") (intToChars job.width) ::
    mkChunk (str "height") (intToChars job.height) ::
    mkChunk (str "scale") (intToChars job.scale) ::
    mkChunk (str "tz") (str "UTC") :: job.Variables.map varChunk

/-- Query chunks of a full-dashboard render URL after the leading from
parameter. -/
def fullChunks (job : Job) : List Str :=
  mkChunk (str "to") job.timeTo ::
    mkChunk (str "width") (intToChars job.width) ::
    mkChunk (str "height") (intToChars job.height) ::
    mkChunk (str "scale") (intToChars job.scale) ::
    str "kiosk" :: mkChunk (str "tz") (str "UTC") :: job.Variables.map varChunk

theorem renderURL_panel_decomp (g : Str) (job : Job) (pid : Int)
    (hpid : job.panelId = some pid) :
    renderURL g job =
      (g ++ str "/render/d-solo/" ++ job.dashboardUID ++ str "/" ++ job.slug) ++
        '?' :: ampJoin (mkChunk (str "panelId") (intToChars pid))
          (panelChunks job) := by
  have e1 : str "?panelId=" = ('?' :: str "panelId") ++ ['='] := rfl
  have e2 : str "&from=" = ('&' :: str "from") ++ ['='] := rfl
  have e3 : str "&to=" = ('&' :: str "to") ++ ['='] := rfl
  have e4 : str "&width=" = ('&' :: str "width") ++ ['='] := rfl
  have e5 : str "&height=" = ('&' :: str "height") ++ ['='] := rfl
  have e6 : str "&scale=" = ('&' :: str "scale") ++ ['='] := rfl
  have e7 : str "&tz=UTC" = ('&' :: str "tz") ++ ('=' :: str "UTC") := rfl
  have e8 : str "&var-" = '&' :: str "var-" := rfl
  rw [renderURL, hpid]
  dsimp only
  rw [foldl_vars]
  simp only [e1, e2, e3, e4, e5, e6, e7, e8, ampJoin, panelChunks, mkChunk,
    varChunk, List.map_cons, List.flatten_cons, List.map_append, List.map_map,
    Function.comp_def, List.cons_append, List.nil_append, List.append_nil,
    List.append_assoc, List.singleton_append]

theorem renderURL_full_decomp (g : Str) (job : Job)
    (hpid : job.panelId = none) :
    renderURL g job =
      (g ++ str "/render/d/" ++ job.dashboardUID ++ str "/" ++ job.slug) ++
        '?' :: ampJoin (mkChunk (str "from") job.timeFrom)
          (fullChunks job) := by
  have e2 : str "?from=" = ('?' :: str "from") ++ ['='] := rfl
  have e3 : str "&to=" = ('&' :: str "to") ++ ['='] := rfl
  have e4 : str "&width=" = ('&' :: str "width") ++ ['='] := rfl
  have e5 : str "&height=" = ('&' :: str "height") ++ ['='] := rfl
  have e6 : str "&scale=" = ('&' :: str "scale") ++ ['='] := rfl
  have e7 : str "&kiosk&tz=UTC" =
      ('&' :: str "kiosk") ++ ('&' :: str "tz") ++ ('=' :: str "UTC") := rfl
  have e8 : str "&var-" = '&' :: str "var-" := rfl
  rw [renderURL, hpid]
  dsimp only
  rw [foldl_vars]
  simp only [e2, e3, e4, e5, e6, e7, e8, ampJoin, fullChunks, mkChunk,
    varChunk, List.map_cons, List.flatten_cons, List.map_append, List.map_map,
    Function.comp_def, List.cons_append, List.nil_append, List.append_nil,
    List.append_assoc, List.singleton_append]

theorem varChunk_eq_mkChunk (kv : Str × Str) :
    varChunk kv = mkChunk (str "var-" ++ kv.1) kv.2 := rfl

theorem paramName_mkChunk (nm v : Str) (h : '=' ∉ nm) :
    paramName (mkChunk nm v) = nm := paramName_eq nm v h

theorem paramValue_mkChunk (nm v : Str) (h : '=' ∉ nm) :
    paramValue (mkChunk nm v) = v := paramValue_eq nm v h

theorem amp_not_mem_mkChunk (nm v : Str) (h1 : '&' ∉ nm) (h2 : '&' ∉ v) :
    '&' ∉ mkChunk nm v := by
  intro hmem
  rcases List.mem_append.mp hmem with h | h
  · exact h1 h
  · rcases List.mem_cons.mp h with h | h
    · exact absurd h (by decide)
    · exact h2 h

theorem amp_not_mem_panelChunks (job : Job) (hfrom : CleanStr job.timeFrom)
    (hto : CleanStr job.timeTo)
    (hvars : ∀ kv ∈ job.Variables, CleanStr kv.1 ∧ CleanStr kv.2) :
    ∀ c ∈ panelChunks job, '&' ∉ c := by
  intro c hc
  have hint : ∀ i : Int, '&' ∉ intToChars i := fun i =>
    meta_not_mem_intToChars i '&' (by decide) (by decide)
  rcases List.mem_cons.mp hc with rfl | hc
  · exact amp_not_mem_mkChunk _ _ (by decide) hfrom.1
  rcases List.mem_cons.mp hc with rfl | hc
  · exact amp_not_mem_mkChunk _ _ (by decide) hto.1
  rcases List.mem_cons.mp hc with rfl | hc
  · exact amp_not_mem_mkChunk _ _ (by decide) (hint _)
  rcases List.mem_cons.mp hc with rfl | hc
  · exact amp_not_mem_mkChunk _ _ (by decide) (hint _)
  rcases List.mem_cons.mp hc with rfl | hc
  · exact amp_not_mem_mkChunk _ _ (by decide) (hint _)
  rcases List.mem_cons.mp hc with rfl | hc
  · decide
  obtain ⟨kv, hkv, rfl⟩ := List.mem_map.mp hc
  rw [varChunk_eq_mkChunk]
  refine amp_not_mem_mkChunk _ _ ?_ (hvars kv hkv).2.1
  intro hmem
  rcases List.mem_append.mp hmem with h | h
  · exact absurd h (by decide)
  · exact (hvars kv hkv).1.1 h

theorem amp_not_mem_fullChunks (job : Job) (hto : CleanStr job.timeTo)
    (hvars : ∀ kv ∈ job.Variables, CleanStr kv.1 ∧ CleanStr kv.2) :
    ∀ c ∈ fullChunks job, '&' ∉ c := by
  intro c hc
  have hint : ∀ i : Int, '&' ∉ intToChars i := fun i =>
    meta_not_mem_intToChars i '&' (by decide) (by decide)
  rcases List.mem_cons.mp hc with rfl | hc
  · exact amp_not_mem_mkChunk _ _ (by decide) hto.1
  rcases List.mem_cons.mp hc with rfl | hc
  · exact amp_not_mem_mkChunk _ _ (by decide) (hint _)
  rcases List.mem_cons.mp hc with rfl | hc
  · exact amp_not_mem_mkChunk _ _ (by decide) (hint _)
  rcases List.mem_cons.mp hc with rfl | hc
  · exact amp_not_mem_mkChunk _ _ (by decide) (hint _)
  rcases List.mem_cons.mp hc with rfl | hc
  · decide
  rcases List.mem_cons.mp hc with rfl | hc
  · decide
  obtain ⟨kv, hkv, rfl⟩ := List.mem_map.mp hc
  rw [varChunk_eq_mkChunk]
  refine amp_not_mem_mkChunk _ _ ?_ (hvars kv hkv).2.1
  intro hmem
  rcases List.mem_append.mp hmem with h | h
  · exact absurd h (by decide)
  · exact (hvars kv hkv).1.1 h

theorem queryParams_panel (g : Str) (job : Job) (pid : Int)
    (hpid : job.panelId = some pid)
    (hg : CleanStr g) (huid : CleanStr job.dashboardUID)
    (hslug : CleanStr job.slug) (hfrom : CleanStr job.timeFrom)
    (hto : CleanStr job.timeTo)
    (hvars : ∀ kv ∈ job.Variables, CleanStr kv.1 ∧ CleanStr kv.2) :
    queryParams (renderURL g job) =
      mkChunk (str "panelId") (intToChars pid) :: panelChunks job := by
  have hP : '?' ∉ (g ++ str "/render/d-solo/" ++ job.dashboardUID ++
      str "/" ++ job.slug) := by
    intro hmem
    rcases List.mem_append.mp hmem with h | h
    · rcases List.mem_append.mp h with h | h
      · rcases List.mem_append.mp h with h | h
        · rcases List.mem_append.mp h with h | h
          · exact hg.2.1 h
          · exact absurd h (by decide)
        · exact huid.2.1 h
      · exact absurd h (by decide)
    · exact hslug.2.1 h
  have hfirst : '&' ∉ mkChunk (str "panelId") (intToChars pid) :=
    amp_not_mem_mkChunk _ _ (by decide)
      (meta_not_mem_intToChars pid '&' (by decide) (by decide))
  rw [renderURL_panel_decomp g job pid hpid]
  rw [queryParams, afterQuery_append _ _ hP]
  exact splitOnChar_ampJoin _ _ hfirst
    (amp_not_mem_panelChunks job hfrom hto hvars)

theorem queryParams_full (g : Str) (job : Job)
    (hpid : job.panelId = none)
    (hg : CleanStr g) (huid : CleanStr job.dashboardUID)
    (hslug : CleanStr job.slug) (hfrom : CleanStr job.timeFrom)
    (hto : CleanStr job.timeTo)
    (hvars : ∀ kv ∈ job.Variables, CleanStr kv.1 ∧ CleanStr kv.2) :
    queryParams (renderURL g job) =
      mkChunk (str "from") job.timeFrom :: fullChunks job := by
  have hP : '?' ∉ (g ++ str "/render/d/" ++ job.dashboardUID ++
      str "/" ++ job.slug) := by
    intro hmem
    rcases List.mem_append.mp hmem with h | h
    · rcases List.mem_append.mp h with h | h
      · rcases List.mem_append.mp h with h | h
        · rcases List.mem_append.mp h with h | h
          · exact hg.2.1 h
          · exact absurd h (by decide)
        · exact huid.2.1 h
      · exact absurd h (by decide)
    · exact hslug.2.1 h
  have hfirst : '&' ∉ mkChunk (str "from") job.timeFrom :=
    amp_not_mem_mkChunk _ _ (by decide) hfrom.1
  rw [renderURL_full_decomp g job hpid]
  rw [queryParams, afterQuery_append _ _ hP]
  exact splitOnChar_ampJoin _ _ hfirst
    (amp_not_mem_fullChunks job hto hvars)

theorem hasParam_of_mem (url nm p : Str) (hp : p ∈ queryParams url)
    (hname : paramName p = nm) : hasParam url nm = true := by
  rw [hasParam]
  exact List.any_eq_true.mpr ⟨p, hp, by rw [hname]; simp⟩

theorem hasParamVal_of_mem (url nm v p : Str) (hp : p ∈ queryParams url)
    (hname : paramName p = nm) (hval : paramValue p = v) :
    hasParamVal url nm v = true := by
  rw [hasParamVal]
  exact List.any_eq_true.mpr ⟨p, hp, by rw [hname, hval]; simp⟩

theorem hasParam_false (url nm : Str)
    (h : ∀ p ∈ queryParams url, paramName p ≠ nm) :
    hasParam url nm = false := by
  rw [hasParam]
  refine List.any_eq_false.mpr ?_
  intro p hp
  simp only [beq_iff_eq]
  exact h p hp

theorem varName_ne_head (k : Str) (c : Char) (rest : Str) (hc : c ≠ 'v') :
    str "var-" ++ k ≠ c :: rest := by
  intro he
  rw [show str "var-" ++ k = 'v' :: (str "ar-" ++ k) from rfl] at he
  injection he with h1 _
  exact hc h1.symm

theorem eq_not_mem_varName (kv : Str × Str) (job : Job)
    (hvars : ∀ kv ∈ job.Variables, CleanStr kv.1 ∧ CleanStr kv.2)
    (hkv : kv ∈ job.Variables) : '=' ∉ str "var-" ++ kv.1 := by
  intro hmem
  rcases List.mem_append.mp hmem with h | h
  · exact absurd h (by decide)
  · exact (hvars kv hkv).1.2.2 h

theorem panelChunks_name_ne (job : Job)
    (hvars : ∀ kv ∈ job.Variables, CleanStr kv.1 ∧ CleanStr kv.2)
    (nm : Str) (hfrom : str "from" ≠ nm) (hto : str "to" ≠ nm)
    (hw : str "width" ≠ nm) (hh : str "height" ≠ nm) (hs : str "scale" ≠ nm)
    (htz : str "tz" ≠ nm) (hvar : ∀ k : Str, str "var-" ++ k ≠ nm) :
    ∀ p ∈ panelChunks job, paramName p ≠ nm := by
  intro p hp
  rcases List.mem_cons.mp hp with rfl | hp
  · rw [paramName_mkChunk _ _ (by decide)]; exact hfrom
  rcases List.mem_cons.mp hp with rfl | hp
  · rw [paramName_mkChunk _ _ (by decide)]; exact hto
  rcases List.mem_cons.mp hp with rfl | hp
  · rw [paramName_mkChunk _ _ (by decide)]; exact hw
  rcases List.mem_cons.mp hp with rfl | hp
  · rw [paramName_mkChunk _ _ (by decide)]; exact hh
  rcases List.mem_cons.mp hp with rfl | hp
  · rw [paramName_mkChunk _ _ (by decide)]; exact hs
  rcases List.mem_cons.mp hp with rfl | hp
  · rw [paramName_mkChunk _ _ (by decide)]; exact htz
  obtain ⟨kv, hkv, rfl⟩ := List.mem_map.mp hp
  rw [varChunk_eq_mkChunk,
    paramName_mkChunk _ _ (eq_not_mem_varName kv job hvars hkv)]
  exact hvar kv.1

theorem fullChunks_name_ne (job : Job)
    (hvars : ∀ kv ∈ job.Variables, CleanStr kv.1 ∧ CleanStr kv.2)
    (nm : Str) (hto : str "to" ≠ nm)
    (hw : str "width" ≠ nm) (hh : str "height" ≠ nm) (hs : str "scale" ≠ nm)
    (hk : str "kiosk" ≠ nm) (htz : str "tz" ≠ nm)
    (hvar : ∀ k : Str, str "var-" ++ k ≠ nm) :
    ∀ p ∈ fullChunks job, paramName p ≠ nm := by
  intro p hp
  rcases List.mem_cons.mp hp with rfl | hp
  · rw [paramName_mkChunk _ _ (by decide)]; exact hto
  rcases List.mem_cons.mp hp with rfl | hp
  · rw [paramName_mkChunk _ _ (by decide)]; exact hw
  rcases List.mem_cons.mp hp with rfl | hp
  · rw [paramName_mkChunk _ _ (by decide)]; exact hh
  rcases List.mem_cons.mp hp with rfl | hp
  · rw [paramName_mkChunk _ _ (by decide)]; exact hs
  rcases List.mem_cons.mp hp with rfl | hp
  · rw [show paramName (str "kiosk") = str "kiosk" from by decide]; exact hk
  rcases List.mem_cons.mp hp with rfl | hp
  · rw [paramName_mkChunk _ _ (by decide)]; exact htz
  obtain ⟨kv, hkv, rfl⟩ := List.mem_map.mp hp
  rw [varChunk_eq_mkChunk,
    paramName_mkChunk _ _ (eq_not_mem_varName kv job hvars hkv)]
  exact hvar kv.1

/-- Claim C5 (amended): whenever the base URL, dashboard uid, slug, time
range, and the variable names and values are free of the URL
metacharacters ampersand, question mark and equals sign - the render
client performs no escaping, so values containing them are spliced into
the URL verbatim and can inject further parameters - the render URL
contains the dashboard uid and slug, carries from, to, width, height and
scale parameters with the values from the job, carries a panelId parameter
exactly when the job has a panel reference, requests kiosk mode exactly
when it has none, and carries one var-name=value parameter per variables
entry. -/
theorem renderURL_spec (g : Str) (job : Job)
    (hg : CleanStr g) (huid : CleanStr job.dashboardUID)
    (hslug : CleanStr job.slug) (hfrom : CleanStr job.timeFrom)
    (hto : CleanStr job.timeTo)
    (hvars : ∀ kv ∈ job.Variables, CleanStr kv.1 ∧ CleanStr kv.2) :
    (hasParam (renderURL g job) (str "panelId") = true ↔
      job.panelId.isSome = true) ∧
    (hasParam (renderURL g job) (str "kiosk") = true ↔ job.panelId = none) ∧
    hasSub job.dashboardUID (renderURL g job) = true ∧
    hasSub job.slug (renderURL g job) = true ∧
    hasParamVal (renderURL g job) (str "from") job.timeFrom = true ∧
    hasParamVal (renderURL g job) (str "to") job.timeTo = true ∧
    hasParamVal (renderURL g job) (str "width") (intToChars job.width) = true ∧
    hasParamVal (renderURL g job) (str "height") (intToChars job.height) = true ∧
    hasParamVal (renderURL g job) (str "scale") (intToChars job.scale) = true ∧
    (∀ kv ∈ job.Variables,
      hasParamVal (renderURL g job) (str "var-" ++ kv.1) kv.2 = true) := by
  cases hpid : job.panelId with
  | some pid =>
    have hparams := queryParams_panel g job pid hpid hg huid hslug hfrom hto hvars
    have hmem : ∀ c ∈ panelChunks job, c ∈ queryParams (renderURL g job) := by
      intro c hc
      rw [hparams]
      exact List.mem_cons_of_mem _ hc
    refine ⟨?_, ?_, ?_, ?_, ?_, ?_, ?_, ?_, ?_, ?_⟩
    · rw [hasParam_of_mem _ _ (mkChunk (str "panelId") (intToChars pid))
        (by rw [hparams]; exact List.mem_cons_self _ _)
        (paramName_mkChunk _ _ (by decide))]
      simp
    · have hfalse : hasParam (renderURL g job) (str "kiosk") = false := by
        refine hasParam_false _ _ ?_
        intro p hp
        rw [hparams] at hp
        rcases List.mem_cons.mp hp with rfl | hp
        · rw [paramName_mkChunk _ _ (by decide)]; decide
        · exact panelChunks_name_ne job hvars (str "kiosk") (by decide)
            (by decide) (by decide) (by decide) (by decide) (by decide)
            (fun k => varName_ne_head k 'k' (str "iosk") (by decide)) p hp
      rw [hfalse]
      simp
    · rw [renderURL_panel_decomp g job pid hpid]
      rw [show (g ++ str "/render/d-solo/" ++ job.dashboardUID ++ str "/" ++
          job.slug) ++ '?' :: ampJoin (mkChunk (str "panelId") (intToChars pid))
            (panelChunks job) =
          (g ++ str "/render/d-solo/") ++ (job.dashboardUID ++ (str "/" ++
            (job.slug ++ '?' :: ampJoin (mkChunk (str "panelId") (intToChars pid))
              (panelChunks job)))) from by simp [List.append_assoc]]
      exact hasSub_mid _ _ _
    · rw [renderURL_panel_decomp g job pid hpid]
      rw [show (g ++ str "/render/d-solo/" ++ job.dashboardUID ++ str "/" ++
          job.slug) ++ '?' :: ampJoin (mkChunk (str "panelId") (intToChars pid))
            (panelChunks job) =
          (g ++ str "/render/d-solo/" ++ job.dashboardUID ++ str "/") ++
            (job.slug ++ '?' :: ampJoin (mkChunk (str "panelId") (intToChars pid))
              (panelChunks job)) from by simp [List.append_assoc]]
      exact hasSub_mid _ _ _
    · exact hasParamVal_of_mem _ _ _ _
        (hmem _ (List.mem_cons_self _ _))
        (paramName_mkChunk _ _ (by decide)) (paramValue_mkChunk _ _ (by decide))
    · exact hasParamVal_of_mem _ _ _ _
        (hmem _ (List.mem_cons_of_mem _ (List.mem_cons_self _ _)))
        (paramName_mkChunk _ _ (by decide)) (paramValue_mkChunk _ _ (by decide))
    · exact hasParamVal_of_mem _ _ _ _
        (hmem _ (List.mem_cons_of_mem _ (List.mem_cons_of_mem _
          (List.mem_cons_self _ _))))
        (paramName_mkChunk _ _ (by decide)) (paramValue_mkChunk _ _ (by decide))
    · exact hasParamVal_of_mem _ _ _ _
        (hmem _ (List.mem_cons_of_mem _ (List.mem_cons_of_mem _
          (List.mem_cons_of_mem _ (List.mem_cons_self _ _)))))
        (paramName_mkChunk _ _ (by decide)) (paramValue_mkChunk _ _ (by decide))
    · exact hasParamVal_of_mem _ _ _ _
        (hmem _ (List.mem_cons_of_mem _ (List.mem_cons_of_mem _
          (List.mem_cons_of_mem _ (List.mem_cons_of_mem _
            (List.mem_cons_self _ _))))))
        (paramName_mkChunk _ _ (by decide)) (paramValue_mkChunk _ _ (by decide))
    · intro kv hkv
      have hne := eq_not_mem_varName kv job hvars hkv
      refine hasParamVal_of_mem _ _ _ (varChunk kv) ?_ ?_ ?_
      · refine hmem _ ?_
        refine List.mem_cons_of_mem _ (List.mem_cons_of_mem _
          (List.mem_cons_of_mem _ (List.mem_cons_of_mem _
            (List.mem_cons_of_mem _ (List.mem_cons_of_mem _ ?_)))))
        exact List.mem_map_of_mem varChunk hkv
      · rw [varChunk_eq_mkChunk]; exact paramName_mkChunk _ _ hne
      · rw [varChunk_eq_mkChunk]; exact paramValue_mkChunk _ _ hne
  | none =>
    have hparams := queryParams_full g job hpid hg huid hslug hfrom hto hvars
    have hmem : ∀ c ∈ fullChunks job, c ∈ queryParams (renderURL g job) := by
      intro c hc
      rw [hparams]
      exact List.mem_cons_of_mem _ hc
    refine ⟨?_, ?_, ?_, ?_, ?_, ?_, ?_, ?_, ?_, ?_⟩
    · have hfalse : hasParam (renderURL g job) (str "panelId") = false := by
        refine hasParam_false _ _ ?_
        intro p hp
        rw [hparams] at hp
        rcases List.mem_cons.mp hp with rfl | hp
        · rw [paramName_mkChunk _ _ (by decide)]; decide
        · exact fullChunks_name_ne job hvars (str "panelId") (by decide)
            (by decide) (by decide) (by decide) (by decide) (by decide)
            (fun k => varName_ne_head k 'p' (str "anelId") (by decide)) p hp
      rw [hfalse]
      simp
    · rw [hasParam_of_mem _ _ (str "kiosk")
        (hmem _ (List.mem_cons_of_mem _ (List.mem_cons_of_mem _
          (List.mem_cons_of_mem _ (List.mem_cons_of_mem _
            (List.mem_cons_self _ _))))))
        (by decide)]
      simp
    · rw [renderURL_full_decomp g job hpid]
      rw [show (g ++ str "/render/d/" ++ job.dashboardUID ++ str "/" ++
          job.slug) ++ '?' :: ampJoin (mkChunk (str "from") job.timeFrom)
            (fullChunks job) =
          (g ++ str "/render/d/") ++ (job.dashboardUID ++ (str "/" ++
            (job.slug ++ '?' :: ampJoin (mkChunk (str "from") job.timeFrom)
              (fullChunks job)))) from by simp [List.append_assoc]]
      exact hasSub_mid _ _ _
    · rw [renderURL_full_decomp g job hpid]
      rw [show (g ++ str "/render/d/" ++ job.dashboardUID ++ str "/" ++
          job.slug) ++ '?' :: ampJoin (mkChunk (str "from") job.timeFrom)
            (fullChunks job) =
          (g ++ str "/render/d/" ++ job.dashboardUID ++ str "/") ++
            (job.slug ++ '?' :: ampJoin (mkChunk (str "from") job.timeFrom)
              (fullChunks job)) from by simp [List.append_assoc]]
      exact hasSub_mid _ _ _
    · exact hasParamVal_of_mem _ _ _ _
        (by rw [hparams]; exact List.mem_cons_self _ _)
        (paramName_mkChunk _ _ (by decide)) (paramValue_mkChunk _ _ (by decide))
    · exact hasParamVal_of_mem _ _ _ _
        (hmem _ (List.mem_cons_self _ _))
        (paramName_mkChunk _ _ (by decide)) (paramValue_mkChunk _ _ (by decide))
    · exact hasParamVal_of_mem _ _ _ _
        (hmem _ (List.mem_cons_of_mem _ (List.mem_cons_self _ _)))
        (paramName_mkChunk _ _ (by decide)) (paramValue_mkChunk _ _ (by decide))
    · exact hasParamVal_of_mem _ _ _ _
        (hmem _ (List.mem_cons_of_mem _ (List.mem_cons_of_mem _
          (List.mem_cons_self _ _))))
        (paramName_mkChunk _ _ (by decide)) (paramValue_mkChunk _ _ (by decide))
    · exact hasParamVal_of_mem _ _ _ _
        (hmem _ (List.mem_cons_of_mem _ (List.mem_cons_of_mem _
          (List.mem_cons_of_mem _ (List.mem_cons_self _ _)))))
        (paramName_mkChunk _ _ (by decide)) (paramValue_mkChunk _ _ (by decide))
    · intro kv hkv
      have hne := eq_not_mem_varName kv job hvars hkv
      refine hasParamVal_of_mem _ _ _ (varChunk kv) ?_ ?_ ?_
      · refine hmem _ ?_
        refine List.mem_cons_of_mem _ (List.mem_cons_of_mem _
          (List.mem_cons_of_mem _ (List.mem_cons_of_mem _
            (List.mem_cons_of_mem _ (List.mem_cons_of_mem _ ?_)))))
        exact List.mem_map_of_mem varChunk hkv
      · rw [varChunk_eq_mkChunk]; exact paramName_mkChunk _ _ hne
      · rw [varChunk_eq_mkChunk]; exact paramValue_mkChunk _ _ hne

/-- Full-dashboard job carrying a variable value that injects an extra
panelId parameter into the unescaped render URL. -/
def injectionJob : Job :=
  { sampleJob with
    panelId := none
    Variables := [(str "a", str "1&panelId=2")] }

/-- Counterexample for claim C5: the render client splices variable values
into the URL without escaping, so a full-dashboard job (no panelRef) whose
variable value contains an ampersand injects a genuine panelId query
parameter - the claimed equivalence between a panelId parameter and the
presence of a panelRef fails. -/
theorem renderURL_counterexample :
    injectionJob.panelId = none ∧
    hasParam (renderURL (str "http://g") injectionJob) (str "panelId") = true := by
  decide

/-- Witness for claim C5: the sample panel job yields a URL with the panel
parameter, the from and to parameters, the variable parameter, and the
literal fragments named by the specification example. -/
theorem renderURL_spec_witness :
    hasParam (renderURL (str "http://g") sampleJob) (str "panelId") = true ∧
    hasParamVal (renderURL (str "http://g") sampleJob)
      (str "var-" ++ str "host") (str "server-01") = true ∧
    hasSub (str "from=now-6h&to=now") (renderURL (str "http://g") sampleJob) = true ∧
    hasSub (str "var-host=server-01") (renderURL (str "http://g") sampleJob) = true := by
  have hclean : ∀ s : String, CleanStr (str s) ↔
      ('&' ∉ str s ∧ '?' ∉ str s ∧ '=' ∉ str s) := fun _ => Iff.rfl
  have h := renderURL_spec (str "http://g") sampleJob
    (by refine ⟨?_, ?_, ?_⟩ <;> decide)
    (by refine ⟨?_, ?_, ?_⟩ <;> decide)
    (by refine ⟨?_, ?_, ?_⟩ <;> decide)
    (by refine ⟨?_, ?_, ?_⟩ <;> decide)
    (by refine ⟨?_, ?_, ?_⟩ <;> decide)
    (by
      intro kv hkv
      rcases List.mem_singleton.mp hkv with rfl
      exact ⟨⟨by decide, by decide, by decide⟩, by decide, by decide, by decide⟩)
  refine ⟨h.1.mpr (by decide), ?_, by decide, by decide⟩
  exact h.2.2.2.2.2.2.2.2.2 (str "host", str "server-01") (by decide)

/-- Alphabet of standard base64 (RFC 4648), as used by Go
`base64.StdEncoding`. -/
def b64Alphabet : Str :=
  str "ABCDEFGHIJKLMNOPQRSTUVWXYZabcdefghijklmnopqrstuvwxyz0123456789+/"

/-- Character encoding one base64 sextet. -/
def encB64Char (n : Nat) : Char := b64Alphabet.getD n '?'

/-- Embeds Go `base64.StdEncoding.EncodeToString`: three input bytes become
four alphabet characters, a two-byte tail is padded with one equals sign
and a one-byte tail with two. -/
def encodeB64 : List Nat → Str
  | a :: b :: c :: rest =>
    encB64Char (a / 4) :: encB64Char (a % 4 * 16 + b / 16) ::
      encB64Char (b % 16 * 4 + c / 64) :: encB64Char (c % 64) :: encodeB64 rest
  | [a, b] =>
    [encB64Char (a / 4), encB64Char (a % 4 * 16 + b / 16),
      encB64Char (b % 16 * 4), '=']
  | [a] => [encB64Char (a / 4), encB64Char (a % 4 * 16), '=', '=']
  | [] => []

/-- Index of a character in the base64 alphabet. -/
def decB64Char (c : Char) : Option Nat := b64Alphabet.findIdx? (fun x => x == c)

/-- Standard base64 decoding of a padded encoded string, the inverse reading
of the claim: four characters yield three bytes, with the padding variants
at the end. -/
def decodeB64 : Str → Option (List Nat)
  | [] => some []
  | c1 :: c2 :: c3 :: c4 :: rest => do
    let d1 ← decB64Char c1
    let d2 ← decB64Char c2
    if c3 = '=' then
      if c4 = '=' ∧ rest = [] then pure [d1 * 4 + d2 / 16] else none
    else do
      let d3 ← decB64Char c3
      if c4 = '=' then
        if rest = [] then pure [d1 * 4 + d2 / 16, d2 % 16 * 16 + d3 / 4]
        else none
      else do
        let d4 ← decB64Char c4
        let tail ← decodeB64 rest
        pure ((d1 * 4 + d2 / 16) :: (d2 % 16 * 16 + d3 / 4) ::
          (d3 % 4 * 64 + d4) :: tail)
  | _ => none

theorem decB64Char_encB64Char : ∀ n, n < 64 →
    decB64Char (encB64Char n) = some n := by decide

theorem encB64Char_ne_pad : ∀ n, n < 64 → encB64Char n ≠ '=' := by decide

/-- Round trip of the base64 model: decoding an encoded byte list restores
it exactly. -/
theorem decodeB64_encodeB64 (bs : List Nat) (h : ∀ x ∈ bs, x < 256) :
    decodeB64 (encodeB64 bs) = some bs := by
  suffices H : ∀ n (bs : List Nat), bs.length = n → (∀ x ∈ bs, x < 256) →
      decodeB64 (encodeB64 bs) = some bs from H bs.length bs rfl h
  intro n
  induction n using Nat.strong_induction_on with
  | _ n ih =>
    rintro (_ | ⟨a, _ | ⟨b, _ | ⟨c, rest⟩⟩⟩) hlen h
    · rfl
    · have ha : a < 256 := h a (by simp)
      have h1 := decB64Char_encB64Char (a / 4) (by omega)
      have h2 := decB64Char_encB64Char (a % 4 * 16) (by omega)
      simp only [encodeB64, decodeB64, h1, h2, Option.bind_eq_bind,
        Option.some_bind, if_pos rfl, and_self, reduceIte]
      have : a / 4 * 4 + a % 4 * 16 / 16 = a := by omega
      rw [this]
      rfl
    · have ha : a < 256 := h a (by simp)
      have hb : b < 256 := h b (by simp)
      have h1 := decB64Char_encB64Char (a / 4) (by omega)
      have h2 := decB64Char_encB64Char (a % 4 * 16 + b / 16) (by omega)
      have h3 := decB64Char_encB64Char (b % 16 * 4) (by omega)
      have hne := encB64Char_ne_pad (b % 16 * 4) (by omega)
      simp only [encodeB64, decodeB64, h1, h2, h3, Option.bind_eq_bind,
        Option.some_bind, if_neg hne, if_pos rfl, reduceIte]
      have e1 : a / 4 * 4 + (a % 4 * 16 + b / 16) / 16 = a := by omega
      have e2 : (a % 4 * 16 + b / 16) % 16 * 16 + b % 16 * 4 / 4 = b := by omega
      rw [e1, e2]
      rfl
    · have ha : a < 256 := h a (by simp)
      have hb : b < 256 := h b (by simp)
      have hc : c < 256 := h c (by simp)
      have h1 := decB64Char_encB64Char (a / 4) (by omega)
      have h2 := decB64Char_encB64Char (a % 4 * 16 + b / 16) (by omega)
      have h3 := decB64Char_encB64Char (b % 16 * 4 + c / 64) (by omega)
      have h4 := decB64Char_encB64Char (c % 64) (by omega)
      have hne3 := encB64Char_ne_pad (b % 16 * 4 + c / 64) (by omega)
      have hne4 := encB64Char_ne_pad (c % 64) (by omega)
      have htail : decodeB64 (encodeB64 rest) = some rest := by
        refine ih rest.length (by rw [← hlen]; simp; omega) rest rfl ?_
        intro x hx
        exact h x (by simp [hx])
      simp only [encodeB64, decodeB64, h1, h2, h3, h4, htail,
        Option.bind_eq_bind, Option.some_bind, if_neg hne3, if_neg hne4]
      have e1 : a / 4 * 4 + (a % 4 * 16 + b / 16) / 16 = a := by omega
      have e2 : (a % 4 * 16 + b / 16) % 16 * 16 + (b % 16 * 4 + c / 64) / 4 = b := by
        omega
      have e3 : (b % 16 * 4 + c / 64) % 4 * 64 + c % 64 = c := by omega
      rw [e1, e2, e3]
      rfl

/-- Fuel-driven 76-character chunking of the Go encoding loops. -/
def chunks76Aux : Nat → Str → List Str
  | 0, _ => []
  | fuel + 1, s =>
    if s = [] then [] else s.take 76 :: chunks76Aux fuel (s.drop 76)

/-- Embeds the 76-characters-per-line wrapping loop of `Send` and
`SendHTML` (email.go, lines 86-92 and 323-329). -/
def chunks76 (s : Str) : List Str := chunks76Aux s.length s

theorem chunks76Aux_flatten (fuel : Nat) :
    ∀ s : Str, s.length ≤ fuel → (chunks76Aux fuel s).flatten = s := by
  induction fuel with
  | zero =>
    intro s hs
    have : s = [] := List.length_eq_zero.mp (by omega)
    subst this
    rfl
  | succ fuel ih =>
    intro s hs
    rw [chunks76Aux]
    by_cases he : s = []
    · rw [if_pos he, he]; rfl
    · rw [if_neg he]
      simp only [List.flatten_cons]
      rw [ih (s.drop 76) (by simp [List.length_drop]; omega)]
      exact List.take_append_drop 76 s

theorem chunks76_flatten (s : Str) : (chunks76 s).flatten = s :=
  chunks76Aux_flatten s.length s (Nat.le_refl _)

theorem chunks76Aux_short (fuel : Nat) :
    ∀ s : Str, ∀ l ∈ chunks76Aux fuel s, l.length ≤ 76 := by
  induction fuel with
  | zero => intro s l hl; exact absurd hl (List.not_mem_nil l)
  | succ fuel ih =>
    intro s l hl
    rw [chunks76Aux] at hl
    by_cases he : s = []
    · rw [if_pos he] at hl
      exact absurd hl (List.not_mem_nil l)
    · rw [if_neg he] at hl
      rcases List.mem_cons.mp hl with rfl | hl
      · simp [List.length_take]
      · exact ih (s.drop 76) l hl

theorem chunks76_short (s : Str) : ∀ l ∈ chunks76 s, l.length ≤ 76 :=
  chunks76Aux_short s.length s

/-- Embeds the Go carriage-return-line-feed pair. -/
def CRLF : Str := str "\r\n"

/-- Embeds `strings.Join` with a separator. -/
def goJoin (sep : Str) : List Str → Str
  | [] => []
  | [x] => x
  | x :: xs => x ++ sep ++ goJoin sep xs

/-- Embeds the base64 body of an attachment or inline image part: the
encoding of the bytes written in 76-character lines, each terminated by
CRLF (email.go, lines 83-92). -/
def wrapBase64 (data : List Nat) : Str :=
  ((chunks76 (encodeB64 data)).map (fun l => l ++ CRLF)).flatten

/-- Embeds the content-type selection of `Send` (email.go, lines 66-72):
png and pdf filename suffixes pick the image and document types, anything
else the generic octet-stream. -/
def attachmentContentType (filename : Str) : Str :=
  if (str ".png").isSuffixOf filename then str "image/png"
  else if (str ".pdf").isSuffixOf filename then str "application/pdf"
  else str "application/octet-stream"

/-- Embeds the attachment filename built by `sendEmail` (part_005, line
443) from the formatted timestamp and the job format. -/
def emailFilename (ts format : Str) : Str :=
  str "report-" ++ ts ++ str "." ++ format

/-- Embeds `Send` (email.go, lines 39-107): the attachment-mode
multipart/mixed message, with the boundary chosen by the multipart writer
passed explicitly.  Part headers appear in the sorted order the Go
multipart writer emits. -/
def sendMessage (fromAddr : Str) (recipients : List Str) (subject body : Str)
    (attachment : List Nat) (filename b : Str) : Str :=
  str "From: " ++ fromAddr ++ CRLF ++
  str "To: " ++ goJoin (str ", ") recipients ++ CRLF ++
  str "Subject: " ++ subject ++ CRLF ++
  str "MIME-Version: 1.0" ++ CRLF ++
  str "Content-Type: multipart/mixed; boundary=" ++ b ++ CRLF ++ CRLF ++
  str "--" ++ b ++ CRLF ++
  str "Content-Type: text/plain; charset=utf-8" ++ CRLF ++ CRLF ++
  body ++
  (if attachment = [] then [] else
    CRLF ++ str "--" ++ b ++ CRLF ++
    str "Content-Disposition: attachment; filename=" ++ filename ++ CRLF ++
    str "Content-Transfer-Encoding: base64" ++ CRLF ++
    str "Content-Type: " ++ attachmentContentType filename ++ CRLF ++ CRLF ++
    wrapBase64 attachment) ++
  CRLF ++ str "--" ++ b ++ str "--" ++ CRLF

theorem hasSub_self (t : Str) : hasSub t t = true :=
  hasSub_of_isPre t t (isPre_self t)

theorem hasSub_append_pair (a b x : Str) :
    hasSub (a ++ b) ((x ++ a) ++ b) = true := by
  have h : (x ++ a) ++ b = x ++ (a ++ b) := List.append_assoc x a b
  rw [h]
  exact hasSub_append_right _ _ _ (hasSub_self _)

theorem pdf_not_png (filename : Str)
    (h : (str ".pdf").isSuffixOf filename = true) :
    (str ".png").isSuffixOf filename = false := by
  rw [List.isSuffixOf_iff_suffix] at h
  rw [Bool.eq_false_iff]
  intro hpng
  rw [List.isSuffixOf_iff_suffix] at hpng
  obtain ⟨p, hp⟩ := h
  obtain ⟨q, hq⟩ := hpng
  rw [← hp] at hq
  have hlen : q.length = p.length := by
    have hl := congrArg List.length hq
    simp only [List.length_append] at hl
    have h4a : (str ".png").length = 4 := by decide
    have h4b : (str ".pdf").length = 4 := by decide
    omega
  have := (List.append_inj hq hlen).2
  exact absurd this (by decide)

/-- Claim C6: the attachment-mode message built by `Send` is a
multipart/mixed message carrying a text/plain body part and an attachment
part whose content type is application/pdf for a .pdf filename (image/png
for .png), whose content disposition names the attachment filename, and
whose body is the base64 encoding of the attachment bytes wrapped at 76
characters per line, with unwrapping and decoding restoring exactly the
original bytes. -/
theorem send_attachment_spec (fromAddr : Str) (recipients : List Str)
    (subject body : Str) (attachment : List Nat) (filename b : Str)
    (hne : attachment ≠ []) (hbytes : ∀ x ∈ attachment, x < 256) :
    hasSub (str "Content-Type: multipart/mixed; boundary=" ++ b)
      (sendMessage fromAddr recipients subject body attachment filename b) = true ∧
    hasSub (str "Content-Type: text/plain; charset=utf-8")
      (sendMessage fromAddr recipients subject body attachment filename b) = true ∧
    ((str ".pdf").isSuffixOf filename = true →
      hasSub (str "Content-Type: application/pdf")
        (sendMessage fromAddr recipients subject body attachment filename b) = true) ∧
    ((str ".png").isSuffixOf filename = true →
      hasSub (str "Content-Type: image/png")
        (sendMessage fromAddr recipients subject body attachment filename b) = true) ∧
    hasSub (str "Content-Disposition: attachment; filename=" ++ filename)
      (sendMessage fromAddr recipients subject body attachment filename b) = true ∧
    hasSub (wrapBase64 attachment)
      (sendMessage fromAddr recipients subject body attachment filename b) = true ∧
    (∀ l ∈ chunks76 (encodeB64 attachment), l.length ≤ 76) ∧
    (chunks76 (encodeB64 attachment)).flatten = encodeB64 attachment ∧
    decodeB64 ((chunks76 (encodeB64 attachment)).flatten) = some attachment := by
  rw [sendMessage, if_neg hne]
  refine ⟨?_, ?_, ?_, ?_, ?_, ?_, chunks76_short _, chunks76_flatten _, ?_⟩
  · apply hasSub_append_left
    apply hasSub_append_left
    apply hasSub_append_left
    apply hasSub_append_left
    apply hasSub_append_left
    apply hasSub_append_left
    apply hasSub_append_left
    apply hasSub_append_left
    apply hasSub_append_left
    apply hasSub_append_left
    apply hasSub_append_left
    apply hasSub_append_left
    apply hasSub_append_left
    apply hasSub_append_left
    apply hasSub_append_left
    exact hasSub_append_pair _ _ _
  · apply hasSub_append_left
    apply hasSub_append_left
    apply hasSub_append_left
    apply hasSub_append_left
    apply hasSub_append_left
    apply hasSub_append_left
    apply hasSub_append_left
    apply hasSub_append_left
    apply hasSub_append_left
    apply hasSub_append_right
    exact hasSub_self _
  · intro hpdf
    have hctype : attachmentContentType filename = str "application/pdf" := by
      rw [attachmentContentType, if_neg (by rw [pdf_not_png filename hpdf]; simp),
        if_pos hpdf]
    rw [show str "Content-Type: application/pdf" =
      str "Content-Type: " ++ str "application/pdf" from rfl]
    apply hasSub_append_left
    apply hasSub_append_left
    apply hasSub_append_left
    apply hasSub_append_left
    apply hasSub_append_left
    apply hasSub_append_right
    rw [hctype]
    apply hasSub_append_left
    apply hasSub_append_left
    apply hasSub_append_left
    exact hasSub_append_pair _ _ _
  · intro hpng
    have hctype : attachmentContentType filename = str "image/png" := by
      rw [attachmentContentType, if_pos hpng]
    rw [show str "Content-Type: image/png" =
      str "Content-Type: " ++ str "image/png" from rfl]
    apply hasSub_append_left
    apply hasSub_append_left
    apply hasSub_append_left
    apply hasSub_append_left
    apply hasSub_append_left
    apply hasSub_append_right
    rw [hctype]
    apply hasSub_append_left
    apply hasSub_append_left
    apply hasSub_append_left
    exact hasSub_append_pair _ _ _
  · apply hasSub_append_left
    apply hasSub_append_left
    apply hasSub_append_left
    apply hasSub_append_left
    apply hasSub_append_left
    apply hasSub_append_right
    apply hasSub_append_left
    apply hasSub_append_left
    apply hasSub_append_left
    apply hasSub_append_left
    apply hasSub_append_left
    apply hasSub_append_left
    apply hasSub_append_left
    apply hasSub_append_left
    exact hasSub_append_pair _ _ _
  · apply hasSub_append_left
    apply hasSub_append_left
    apply hasSub_append_left
    apply hasSub_append_left
    apply hasSub_append_left
    apply hasSub_append_right
    apply hasSub_append_right
    exact hasSub_self _
  · rw [chunks76_flatten]
    exact decodeB64_encodeB64 attachment hbytes

/-- Witness for claim C6: a concrete three-byte pdf report attachment
yields a message with the multipart/mixed header, the pdf content type and
the disposition filename, and its base64 body decodes back to the three
bytes. -/
theorem send_attachment_spec_witness :
    hasSub (str "Content-Type: multipart/mixed; boundary=" ++ str "BOUNDARY")
      (sendMessage (str "reports@example.com") [str "ops@example.com"]
        (str "Report") (str "See attached.") [1, 2, 3]
        (emailFilename (str "2026-01-02-030405") (str "pdf"))
        (str "BOUNDARY")) = true ∧
    hasSub (str "Content-Type: application/pdf")
      (sendMessage (str "reports@example.com") [str "ops@example.com"]
        (str "Report") (str "See attached.") [1, 2, 3]
        (emailFilename (str "2026-01-02-030405") (str "pdf"))
        (str "BOUNDARY")) = true ∧
    decodeB64 ((chunks76 (encodeB64 [1, 2, 3])).flatten) = some [1, 2, 3] := by
  have h := send_attachment_spec (str "reports@example.com")
    [str "ops@example.com"] (str "Report") (str "See attached.") [1, 2, 3]
    (emailFilename (str "2026-01-02-030405") (str "pdf")) (str "BOUNDARY")
    (by decide) (by decide)
  exact ⟨h.1, h.2.2.1 (by decide), h.2.2.2.2.2.2.2.2⟩

/-- Literal segment of the HTML template of `SendHTML` (email.go, lines
159-298), split at the format verbs and at the content-id image
reference. -/
def htmlTpl1 : Str :=
  str "<!DOCTYPE html>\n<html>\n<head>\n    <meta charset=\"utf-8\">\n    <meta name=\"viewport\" content=\"width=device-width, initial-scale=1.0\">\n    <style>\n        body \x7b \n            font-family: -apple-system, BlinkMacSystemFont, \x27Segoe UI\x27, Roboto, \x27Helvetica Neue\x27, Arial, sans-serif;\n            margin: 0;\n            padding: 20px;\n            background-color: #f5f5f5;\n        \x7d\n        .email-container \x7b\n            max-width: 800px;\n            margin: 0 auto;\n            background-color: #ffffff;\n            border-radius: 8px;\n            box-shadow: 0 2px 8px rgba(0,0,0,0.1);\n            overflow: hidden;\n        \x7d\n        .header \x7b\n            background: linear-gradient(135deg, #667eea 0%, #764ba2 100%);\n            color: white;\n            padding: 30px;\n            text-align: center;\n        \x7d\n        .header h1 \x7b\n            margin: 0;\n            font-size: 24px;\n            font-weight: 600;\n        \x7d\n        .content \x7b \n            padding: 30px;\n            line-height: 1.6;\n            color: #333;\n        \x7d\n        .content p \x7b\n            margin: 0 0 15px 0;\n        \x7d\n        .report-section \x7b\n            margin: 30px 0;\n            text-align: center;\n        \x7d\n        .report-link \x7b\n            display: inline-block;\n            text-decoration: none;\n            position: relative;\n        \x7d\n        .report-image \x7b \n            max-width: 100%; \n            height: auto; \n            border: 1px solid #e0e0e0;\n            border-radius: 4px;\n            box-shadow: 0 4px 12px rgba(0,0,0,0.08);\n            transition: transform 0.2s ease, box-shadow 0.2s ease;\n        \x7d\n        .report-link:hover .report-image \x7b\n            transform: translateY(-2px);\n            box-shadow: 0 6px 16px rgba(0,0,0,0.12);\n        \x7d\n        .view-live-btn \x7b\n            display: inline-block;\n            margin: 20px auto;\n            padding: 14px 32px;\n            background: linear-gradient(135deg, #667eea 0%, #764ba2 100%);\n            color: white;\n            text-decoration: none;\n            border-radius: 6px;\n            font-weight: 600;\n            font-size: 16px;\n            box-shadow: 0 4px 12px rgba(102, 126, 234, 0.3);\n            transition: transform 0.2s ease, box-shadow 0.2s ease;\n        \x7d\n        .view-live-btn:hover \x7b\n            transform: translateY(-2px);\n            box-shadow: 0 6px 16px rgba(102, 126, 234, 0.4);\n        \x7d\n        .iframe-container \x7b\n            margin: 30px 0;\n            border: 1px solid #e0e0e0;\n            border-radius: 4px;\n            overflow: hidden;\n            background: #f9f9f9;\n        \x7d\n        .iframe-container iframe \x7b\n            width: 100%;\n            min-height: 600px;\n            border: none;\n            display: block;\n        \x7d\n        .note \x7b\n            padding: 15px;\n            background-color: #fff3cd;\n            border-left: 4px solid #ffc107;\n            margin: 20px 0;\n            border-radius: 4px;\n            font-size: 14px;\n            color: #856404;\n        \x7d\n        .footer \x7b\n            padding: 20px 30px;\n            background-color: #f8f9fa;\n            text-align: center;\n            font-size: 12px;\n            color: #6c757d;\n            border-top: 1px solid #e9ecef;\n        \x7d\n    </style>\n</head>\n<body>\n    <div class=\"email-container\">\n        <div class=\"header\">\n            <h1>📊 Grafana Report</h1>\n        </div>\n        <div class=\"content\">\n            <p>"

/-- Literal segment of the HTML template of `SendHTML` (email.go, lines
159-298), split at the format verbs and at the content-id image
reference. -/
def htmlTpl2 : Str :=
  str "</p>\n        </div>\n        <div class=\"report-section\">\n            <a href=\""

/-- Literal segment of the HTML template of `SendHTML` (email.go, lines
159-298), split at the format verbs and at the content-id image
reference. -/
def htmlTpl3a : Str :=
  str "\" class=\"report-link\" target=\"_blank\" rel=\"noopener noreferrer\">\n                <img "

/-- Literal segment of the HTML template of `SendHTML` (email.go, lines
159-298), split at the format verbs and at the content-id image
reference. -/
def htmlTpl3b : Str :=
  str " alt=\"Grafana Report - Click to view live dashboard\" class=\"report-image\" />\n            </a>\n            <div style=\"margin-top: 20px;\">\n                <a href=\""

/-- Literal segment of the HTML template of `SendHTML` (email.go, lines
159-298), split at the format verbs and at the content-id image
reference. -/
def htmlTpl4 : Str :=
  str "\" class=\"view-live-btn\" target=\"_blank\" rel=\"noopener noreferrer\">\n                    🔴 View Live Dashboard\n                </a>\n            </div>\n        </div>\n        <div class=\"note\">\n            <strong>💡 Tip:</strong> Click the image or button above to view the interactive, live dashboard in Grafana with real-time data.\n        </div>\n        <div class=\"iframe-container\">\n            <iframe src=\""

/-- Literal segment of the HTML template of `SendHTML` (email.go, lines
159-298), split at the format verbs and at the content-id image
reference. -/
def htmlTpl5 : Str :=
  str "&kiosk\" title=\"Live Grafana Dashboard\" sandbox=\"allow-scripts allow-same-origin allow-forms\"></iframe>\n        </div>\n        <div class=\"footer\">\n            <p>This report was automatically generated by Grafana Reporter Plugin</p>\n            <p>The embedded dashboard above is live and interactive (if your email client supports iframes)</p>\n        </div>\n    </div>\n</body>\n</html>"

/-- Embeds `strings.ReplaceAll(body, "\n", "<br>")` (email.go, line 298). -/
def nlToBr : Str → Str
  | [] => []
  | c :: cs => if c = '\n' then str "<br>" ++ nlToBr cs else c :: nlToBr cs

/-- Embeds the `htmlEmailFallbackText` constant (email.go, line 15). -/
def htmlEmailFallbackText : Str :=
  str "\n\nThis email contains an embedded image. Please view it in an HTML-capable email client."

/-- Embeds the inline-image content-type selection of `SendHTML`
(email.go, lines 304-308). -/
def htmlImageContentType (imageFormat : Str) : Str :=
  if imageFormat = str "pdf" then str "application/pdf" else str "image/png"

/-- Embeds the formatted HTML body of `SendHTML` (email.go, lines
159-298): the template with the break-substituted body text and the
dashboard URL spliced in at the three link positions. -/
def htmlEmailBody (body dashURL : Str) : Str :=
  htmlTpl1 ++ nlToBr body ++ htmlTpl2 ++ dashURL ++ htmlTpl3a ++
    str "src=\"cid:report-image\"" ++ htmlTpl3b ++ dashURL ++ htmlTpl4 ++
    dashURL ++ htmlTpl5

/-- Embeds `SendHTML` (email.go, lines 110-347): the embedded-mode
multipart/alternative message with a plain-text fallback part and a
multipart/related part holding the HTML body and the inline base64 image;
the outer and inner boundaries of the multipart writers are passed
explicitly, and part headers appear in the sorted order the Go multipart
writer emits. -/
def sendHTMLMessage (fromAddr : Str) (recipients : List Str)
    (subject body : Str) (imageData : List Nat)
    (imageFormat dashURL b1 b2 : Str) : Str :=
  str "From: " ++ fromAddr ++ CRLF ++
  str "To: " ++ goJoin (str ", ") recipients ++ CRLF ++
  str "Subject: " ++ subject ++ CRLF ++
  str "MIME-Version: 1.0" ++ CRLF ++
  str "Content-Type: multipart/alternative; boundary=" ++ b1 ++ CRLF ++ CRLF ++
  str "--" ++ b1 ++ CRLF ++
  str "Content-Type: text/plain; charset=utf-8" ++ CRLF ++ CRLF ++
  body ++ htmlEmailFallbackText ++
  CRLF ++ str "--" ++ b1 ++ CRLF ++
  str "Content-Type: multipart/related; boundary=" ++ b2 ++ CRLF ++ CRLF ++
  str "--" ++ b2 ++ CRLF ++
  str "Content-Type: text/html; charset=utf-8" ++ CRLF ++ CRLF ++
  htmlEmailBody body dashURL ++
  (if imageData = [] then [] else
    CRLF ++ str "--" ++ b2 ++ CRLF ++
    str "Content-Disposition: inline" ++ CRLF ++
    str "Content-ID: " ++ str "<report-image>" ++ CRLF ++
    str "Content-Transfer-Encoding: base64" ++ CRLF ++
    str "Content-Type: " ++ htmlImageContentType imageFormat ++ CRLF ++ CRLF ++
    wrapBase64 imageData) ++
  CRLF ++ str "--" ++ b2 ++ str "--" ++ CRLF ++
  CRLF ++ str "--" ++ b1 ++ str "--" ++ CRLF

/-- Modelled from the spec: the delivery dispatch of the execution
pipeline.  The current executeJob/sendEmail revision of the repository is
not under src: part_005 predates the html format (its sendEmail always
attaches, and no file under src defines the buildDashboardURL helper that
app_test.go exercises and that the dashboard link of SendHTML needs),
while the changelog and the spec state that format html embeds the PNG
render inline via SendHTML and every other format attaches via Send. -/
def deliverEmail (job : Job) (ts : Str) (data : List Nat)
    (smtpFrom dashURL b1 b2 : Str) : Str :=
  if job.format = str "html" then
    sendHTMLMessage smtpFrom job.recipients job.subject job.body data
      (str "png") dashURL b1 b2
  else
    sendMessage smtpFrom job.recipients job.subject job.body data
      (emailFilename ts job.format) b1

/-- Claim C7: a job of format html is delivered in embedded mode - the
message is multipart/alternative with a plain-text fallback part carrying
the view-in-an-HTML-client notice and a multipart/related part whose HTML
body references the inline image through a content-id URI that matches the
Content-ID of the image part - while jobs of format png or pdf are
delivered in attachment mode (multipart/mixed).  The dispatch itself is
modelled from the spec, the two composers from email.go. -/
theorem html_format_embedded (job : Job) (ts : Str) (data : List Nat)
    (smtpFrom dashURL b1 b2 : Str) (hdata : data ≠ []) :
    (job.format = str "html" →
      deliverEmail job ts data smtpFrom dashURL b1 b2 =
        sendHTMLMessage smtpFrom job.recipients job.subject job.body data
          (str "png") dashURL b1 b2 ∧
      hasSub (str "Content-Type: multipart/alternative; boundary=" ++ b1)
        (deliverEmail job ts data smtpFrom dashURL b1 b2) = true ∧
      hasSub (str "Content-Type: text/plain; charset=utf-8")
        (deliverEmail job ts data smtpFrom dashURL b1 b2) = true ∧
      hasSub htmlEmailFallbackText
        (deliverEmail job ts data smtpFrom dashURL b1 b2) = true ∧
      hasSub (str "Content-Type: multipart/related; boundary=" ++ b2)
        (deliverEmail job ts data smtpFrom dashURL b1 b2) = true ∧
      (∃ cid : Str, cid ≠ [] ∧
        hasSub (str "src=\"cid:" ++ cid ++ str "\"")
          (deliverEmail job ts data smtpFrom dashURL b1 b2) = true ∧
        hasSub (str "Content-ID: <" ++ cid ++ str ">")
          (deliverEmail job ts data smtpFrom dashURL b1 b2) = true)) ∧
    ((job.format = str "png" ∨ job.format = str "pdf") →
      deliverEmail job ts data smtpFrom dashURL b1 b2 =
        sendMessage smtpFrom job.recipients job.subject job.body data
          (emailFilename ts job.format) b1 ∧
      hasSub (str "Content-Type: multipart/mixed; boundary=" ++ b1)
        (deliverEmail job ts data smtpFrom dashURL b1 b2) = true) := by
  constructor
  · intro hfmt
    have hd : deliverEmail job ts data smtpFrom dashURL b1 b2 =
        sendHTMLMessage smtpFrom job.recipients job.subject job.body data
          (str "png") dashURL b1 b2 := by
      rw [deliverEmail, if_pos hfmt]
    rw [hd]
    refine ⟨rfl, ?_, ?_, ?_, ?_, ?_⟩
    · rw [sendHTMLMessage, if_neg hdata]
      iterate 36 apply hasSub_append_left
      exact hasSub_append_pair _ _ _
    · rw [sendHTMLMessage, if_neg hdata]
      iterate 30 apply hasSub_append_left
      apply hasSub_append_right
      exact hasSub_self _
    · rw [sendHTMLMessage, if_neg hdata]
      iterate 26 apply hasSub_append_left
      apply hasSub_append_right
      exact hasSub_self _
    · rw [sendHTMLMessage, if_neg hdata]
      iterate 20 apply hasSub_append_left
      exact hasSub_append_pair _ _ _
    · refine ⟨str "report-image", by decide, ?_, ?_⟩
      · rw [sendHTMLMessage, if_neg hdata]
        iterate 11 apply hasSub_append_left
        apply hasSub_append_right
        rw [htmlEmailBody]
        iterate 5 apply hasSub_append_left
        apply hasSub_append_right
        exact hasSub_self _
      · rw [sendHTMLMessage, if_neg hdata]
        iterate 10 apply hasSub_append_left
        apply hasSub_append_right
        iterate 8 apply hasSub_append_left
        exact hasSub_append_pair (str "Content-ID: ") (str "<report-image>") _
  · intro hfmt2
    have hne : ¬(job.format = str "html") := by
      rcases hfmt2 with h | h <;> rw [h] <;> decide
    have hd : deliverEmail job ts data smtpFrom dashURL b1 b2 =
        sendMessage smtpFrom job.recipients job.subject job.body data
          (emailFilename ts job.format) b1 := by
      rw [deliverEmail, if_neg hne]
    rw [hd]
    refine ⟨rfl, ?_⟩
    rw [sendMessage]
    iterate 15 apply hasSub_append_left
    exact hasSub_append_pair _ _ _

/-- Sample job of format html used by the claim C7 witness. -/
def htmlJob : Job := { sampleJob with format := str "html" }

/-- Witness for claim C7: the html-format sample job is delivered through
the embedded-mode composer with matching content-id references, and the
same job with format pdf is delivered through the attachment-mode
composer. -/
theorem html_format_embedded_witness :
    deliverEmail htmlJob (str "ts") [1, 2, 3] (str "reports@example.com")
      (str "http://g/d/abc123/dash") (str "B1") (str "B2") =
      sendHTMLMessage (str "reports@example.com") htmlJob.recipients
        htmlJob.subject htmlJob.body [1, 2, 3] (str "png")
        (str "http://g/d/abc123/dash") (str "B1") (str "B2") ∧
    (∃ cid : Str, cid ≠ [] ∧
      hasSub (str "src=\"cid:" ++ cid ++ str "\"")
        (deliverEmail htmlJob (str "ts") [1, 2, 3] (str "reports@example.com")
          (str "http://g/d/abc123/dash") (str "B1") (str "B2")) = true ∧
      hasSub (str "Content-ID: <" ++ cid ++ str ">")
        (deliverEmail htmlJob (str "ts") [1, 2, 3] (str "reports@example.com")
          (str "http://g/d/abc123/dash") (str "B1") (str "B2")) = true) ∧
    deliverEmail sampleJob (str "ts") [1, 2, 3] (str "reports@example.com")
      (str "http://g/d/abc123/dash") (str "B1") (str "B2") =
      sendMessage (str "reports@example.com") sampleJob.recipients
        sampleJob.subject sampleJob.body [1, 2, 3]
        (emailFilename (str "ts") sampleJob.format) (str "B1") := by
  have h1 := (html_format_embedded htmlJob (str "ts") [1, 2, 3]
    (str "reports@example.com") (str "http://g/d/abc123/dash") (str "B1")
    (str "B2") (by decide)).1 rfl
  have h2 := (html_format_embedded sampleJob (str "ts") [1, 2, 3]
    (str "reports@example.com") (str "http://g/d/abc123/dash") (str "B1")
    (str "B2") (by decide)).2 (Or.inr rfl)
  exact ⟨h1.1, h1.2.2.2.2.2, h2.1⟩

end GrafanaReporter
